import Mathlib

/-!
# LCD 20x4 I2C driver (`Core/Src/lcd_i2c_driver.c`)

A shallow embedding of the driver.  `uint8_t` values are natural numbers, reduced
modulo 256 wherever the C code stores a result of integer arithmetic into an
8-bit object.  The two external collaborators, the I2C transmit primitive and the
blocking delay, are recorded as events appended to a trace, in program order.
-/

namespace LcdDriver

/-! ## Constants of `lcd_i2c_driver.h` -/

/-- Expansion of `0x27U << 1`. -/
def LCD_I2C_ADDR : Nat := 0x27 <<< 1
def LCD_ROWS : Nat := 4
def LCD_COLS : Nat := 20

def LCD_CLEAR : Nat := 0x01
def LCD_HOME : Nat := 0x02
def LCD_ENTRY_MODE : Nat := 0x04
def LCD_DISPLAY_CTRL : Nat := 0x08
def LCD_CURSOR_SHIFT : Nat := 0x10
def LCD_FUNCTION_SET : Nat := 0x20
def LCD_CGRAM_ADDR : Nat := 0x40
def LCD_DDRAM_ADDR : Nat := 0x80

def LCD_ENTRY_RIGHT : Nat := 0x00
def LCD_ENTRY_LEFT : Nat := 0x02
def LCD_ENTRY_SHIFT_INC : Nat := 0x01
def LCD_ENTRY_SHIFT_DEC : Nat := 0x00

def LCD_DISPLAY_ON : Nat := 0x04
def LCD_DISPLAY_OFF : Nat := 0x00
def LCD_CURSOR_ON : Nat := 0x02
def LCD_CURSOR_OFF : Nat := 0x00
def LCD_BLINK_ON : Nat := 0x01
def LCD_BLINK_OFF : Nat := 0x00

def LCD_8BIT_MODE : Nat := 0x10
def LCD_4BIT_MODE : Nat := 0x00
def LCD_2_LINE : Nat := 0x08
def LCD_1_LINE : Nat := 0x00
def LCD_5x10_DOTS : Nat := 0x04
def LCD_5x8_DOTS : Nat := 0x00

def LCD_RS : Nat := 0x01
def LCD_RW : Nat := 0x02
def LCD_EN : Nat := 0x04
def LCD_BACKLIGHT : Nat := 0x08

/-- Bitwise complement of a 32-bit `unsigned int` (the type of the `U` constants). -/
def not_u32 (x : Nat) : Nat := 0xFFFFFFFF ^^^ (x % 4294967296)

/-- Conversion of an arithmetic result to `uint8_t`. -/
def u8 (x : Nat) : Nat := x % 256

/-! ## Data model -/

/-- Status codes of the vendor HAL (`HAL_OK` is the value `LCD_Init` returns). -/
inductive HAL_StatusTypeDef where
  | HAL_OK
  | HAL_ERROR
  | HAL_BUSY
  | HAL_TIMEOUT
  deriving DecidableEq, Repr

/-- The struct `LCD_Handle`; `hi2c` is the identity of the bus handle pointed to. -/
structure LCD_Handle where
  hi2c : Nat
  address : Nat
  backlight_state : Nat
  display_control : Nat
  entry_mode : Nat
  current_row : Nat
  current_col : Nat
  deriving DecidableEq, Repr

/-- One call to an external collaborator. -/
inductive Event where
  /-- The call `HAL_I2C_Master_Transmit(hi2c, address, &byte, 1, 100)`. -/
  | transmit (hi2c : Nat) (address : Nat) (byte : Nat)
  /-- The call `HAL_Delay(ms)`. -/
  | delay (ms : Nat)
  deriving DecidableEq, Repr

/-- The driver state: the handle the caller owns, and everything done to the
outside world so far, oldest first. -/
structure Dev where
  hlcd : LCD_Handle
  trace : List Event
  deriving DecidableEq, Repr

/-- The bytes put on the bus by a trace, in order. -/
def busBytes : List Event → List Nat
  | [] => []
  | Event.transmit _ _ b :: es => b :: busBytes es
  | Event.delay _ :: es => busBytes es

/-- Every 8-bit field of the handle holds an 8-bit value. -/
def LCD_Handle.inRange (h : LCD_Handle) : Prop :=
  h.address < 256 ∧ h.backlight_state < 256 ∧ h.display_control < 256 ∧
  h.entry_mode < 256 ∧ h.current_row < 256 ∧ h.current_col < 256

instance (h : LCD_Handle) : Decidable h.inRange := by
  unfold LCD_Handle.inRange; infer_instance

/-! ## External collaborators -/

def HAL_I2C_Master_Transmit (d : Dev) (hi2c DevAddress byte : Nat) : Dev :=
  { d with trace := d.trace ++ [Event.transmit hi2c DevAddress byte] }

def HAL_Delay (d : Dev) (ms : Nat) : Dev :=
  { d with trace := d.trace ++ [Event.delay ms] }

/-! ## Nibble / pulse encoder and command / data layer -/

/-- Source lines 110-121. -/
def LCD_Pulse (d : Dev) (data : Nat) : Dev :=
  let d := HAL_I2C_Master_Transmit d d.hlcd.hi2c d.hlcd.address data
  let d := HAL_Delay d 2
  let data := u8 (data ||| LCD_EN)
  let d := HAL_I2C_Master_Transmit d d.hlcd.hi2c d.hlcd.address data
  let d := HAL_Delay d 2
  let data := u8 (data &&& not_u32 LCD_EN)
  let d := HAL_I2C_Master_Transmit d d.hlcd.hi2c d.hlcd.address data
  HAL_Delay d 2

/-- Source lines 104-107. -/
def LCD_SendNibble (d : Dev) (nibble mode : Nat) : Dev :=
  let data := u8 (nibble ||| mode ||| d.hlcd.backlight_state)
  LCD_Pulse d data

/-- Source lines 86-92. -/
def LCD_SendCommand (d : Dev) (cmd : Nat) : Dev :=
  let high_nibble := u8 (cmd &&& 0xF0)
  let low_nibble := u8 ((cmd <<< 4) &&& 0xF0)
  let d := LCD_SendNibble d high_nibble 0
  LCD_SendNibble d low_nibble 0

/-- Source lines 95-101. -/
def LCD_SendData (d : Dev) (data : Nat) : Dev :=
  let high_nibble := u8 (data &&& 0xF0)
  let low_nibble := u8 ((data <<< 4) &&& 0xF0)
  let d := LCD_SendNibble d high_nibble LCD_RS
  LCD_SendNibble d low_nibble LCD_RS

/-! ## Basic commands -/

/-- Source lines 124-129. -/
def LCD_Clear (d : Dev) : Dev :=
  let d := LCD_SendCommand d LCD_CLEAR
  let d := HAL_Delay d 2
  { d with hlcd := { d.hlcd with current_row := 0, current_col := 0 } }

/-- Source lines 132-137. -/
def LCD_Home (d : Dev) : Dev :=
  let d := LCD_SendCommand d LCD_HOME
  let d := HAL_Delay d 2
  { d with hlcd := { d.hlcd with current_row := 0, current_col := 0 } }

/-- The local array `row_offsets` of `LCD_SetCursor`. -/
def row_offsets : List Nat := [0x00, 0x40, 0x14, 0x54]

/-- Source lines 140-150. -/
def LCD_SetCursor (d : Dev) (row col : Nat) : Dev :=
  let row := if row ≥ LCD_ROWS then LCD_ROWS - 1 else row
  let col := if col ≥ LCD_COLS then LCD_COLS - 1 else col
  let d := { d with hlcd := { d.hlcd with current_row := row, current_col := col } }
  LCD_SendCommand d (u8 (LCD_DDRAM_ADDR ||| (col + row_offsets.getD row 0)))

/-- Source lines 153-160. -/
def LCD_Display (d : Dev) (on_ : Bool) : Dev :=
  let d := if on_ then
      { d with hlcd := { d.hlcd with
          display_control := u8 (d.hlcd.display_control ||| LCD_DISPLAY_ON) } }
    else
      { d with hlcd := { d.hlcd with
          display_control := u8 (d.hlcd.display_control &&& not_u32 LCD_DISPLAY_ON) } }
  LCD_SendCommand d d.hlcd.display_control

/-- Source lines 163-170. -/
def LCD_Cursor (d : Dev) (on_ : Bool) : Dev :=
  let d := if on_ then
      { d with hlcd := { d.hlcd with
          display_control := u8 (d.hlcd.display_control ||| LCD_CURSOR_ON) } }
    else
      { d with hlcd := { d.hlcd with
          display_control := u8 (d.hlcd.display_control &&& not_u32 LCD_CURSOR_ON) } }
  LCD_SendCommand d d.hlcd.display_control

/-- Source lines 173-180. -/
def LCD_Blink (d : Dev) (on_ : Bool) : Dev :=
  let d := if on_ then
      { d with hlcd := { d.hlcd with
          display_control := u8 (d.hlcd.display_control ||| LCD_BLINK_ON) } }
    else
      { d with hlcd := { d.hlcd with
          display_control := u8 (d.hlcd.display_control &&& not_u32 LCD_BLINK_ON) } }
  LCD_SendCommand d d.hlcd.display_control

/-- Source lines 183-191. -/
def LCD_Backlight (d : Dev) (on_ : Bool) : Dev :=
  let d := if on_ then
      { d with hlcd := { d.hlcd with backlight_state := LCD_BACKLIGHT } }
    else
      { d with hlcd := { d.hlcd with backlight_state := 0 } }
  let data := d.hlcd.backlight_state
  HAL_I2C_Master_Transmit d d.hlcd.hi2c d.hlcd.address data

/-! ## Text output

A C string is the list of the bytes stored from the pointer on; the first zero
byte, or the end of the list, is the terminator. -/

/-- Source lines 194-199: `while (*str) { LCD_SendData(hlcd, *str++); hlcd->current_col++; }`. -/
def LCD_Print (d : Dev) : List Nat → Dev
  | [] => d
  | c :: str =>
    if c = 0 then d
    else
      let d := LCD_SendData d c
      let d := { d with hlcd := { d.hlcd with current_col := u8 (d.hlcd.current_col + 1) } }
      LCD_Print d str

/-- Source lines 202-205. -/
def LCD_PrintAt (d : Dev) (row col : Nat) (str : List Nat) : Dev :=
  let d := LCD_SetCursor d row col
  LCD_Print d str

/-- Source lines 208-216.  The argument `formatted` is the complete rendering of the
format string with its arguments; `vsnprintf` stores at most `sizeof(buffer) - 1`
characters of it into `buffer[LCD_COLS + 1]`. -/
def LCD_Printf (d : Dev) (row col : Nat) (formatted : List Nat) : Dev :=
  let buffer := formatted.take (LCD_COLS + 1 - 1)
  LCD_PrintAt d row col buffer

/-- Source lines 219-222. -/
def LCD_PrintChar (d : Dev) (c : Nat) : Dev :=
  let d := LCD_SendData d c
  { d with hlcd := { d.hlcd with current_col := u8 (d.hlcd.current_col + 1) } }

/-! ## Custom glyphs -/

/-- The table `CHAR_PATTERNS`, source lines 15-32. -/
def CHAR_PATTERNS : List (List Nat) :=
  [ [0x00, 0x04, 0x02, 0x1F, 0x02, 0x04, 0x00, 0x00],
    [0x00, 0x04, 0x08, 0x1F, 0x08, 0x04, 0x00, 0x00],
    [0x06, 0x09, 0x09, 0x06, 0x00, 0x00, 0x00, 0x00],
    [0x04, 0x0E, 0x0E, 0x0E, 0x1F, 0x00, 0x04, 0x00],
    [0x00, 0x0A, 0x1F, 0x1F, 0x0E, 0x04, 0x00, 0x00],
    [0x0E, 0x1F, 0x1F, 0x1F, 0x1F, 0x1F, 0x1F, 0x0E],
    [0x0E, 0x11, 0x11, 0x1F, 0x1F, 0x1F, 0x1F, 0x0E],
    [0x0E, 0x11, 0x11, 0x11, 0x11, 0x11, 0x11, 0x0E] ]

/-- The table `SPINNER_CHARS`, source line 35: the characters `|`, `/`, `-` and backslash. -/
def SPINNER_CHARS : List Nat := [0x7C, 0x2F, 0x2D, 0x5C]

def CHAR_ARROW_RIGHT : Nat := 0
def CHAR_ARROW_LEFT : Nat := 1

/-- Source lines 225-234.  The loop counter runs over 0..7 and cannot wrap. -/
def LCD_CreateCustomChar (d : Dev) (location : Nat) (charmap : List Nat) : Dev :=
  let location := u8 (location &&& 0x07)
  let d := LCD_SendCommand d (u8 (LCD_CGRAM_ADDR ||| (location <<< 3)))
  let d := (List.range 8).foldl (fun d i => LCD_SendData d (charmap.getD i 0)) d
  LCD_Home d

/-- Source lines 237-241. -/
def LCD_LoadDefaultChars (d : Dev) : Dev :=
  (List.range 8).foldl (fun d i => LCD_CreateCustomChar d i (CHAR_PATTERNS.getD i [])) d

/-- Source lines 244-247. -/
def LCD_PrintCustomChar (d : Dev) (location : Nat) : Dev :=
  let d := LCD_SendData d (location &&& 0x07)
  { d with hlcd := { d.hlcd with current_col := u8 (d.hlcd.current_col + 1) } }

/-! ## Initialisation -/

/-- Source lines 44-83. -/
def LCD_Init (d : Dev) (hi2c : Nat) : Dev × HAL_StatusTypeDef :=
  let d := { d with hlcd := { d.hlcd with hi2c := hi2c } }
  let d := { d with hlcd := { d.hlcd with address := u8 LCD_I2C_ADDR } }
  let d := { d with hlcd := { d.hlcd with backlight_state := LCD_BACKLIGHT } }
  let d := { d with hlcd := { d.hlcd with current_row := 0 } }
  let d := { d with hlcd := { d.hlcd with current_col := 0 } }
  let d := HAL_Delay d 50
  let d := LCD_SendNibble d 0x03 0
  let d := HAL_Delay d 5
  let d := LCD_SendNibble d 0x03 0
  let d := HAL_Delay d 1
  let d := LCD_SendNibble d 0x03 0
  let d := HAL_Delay d 1
  let d := LCD_SendNibble d 0x02 0
  let d := HAL_Delay d 1
  let d := LCD_SendCommand d
    (LCD_FUNCTION_SET ||| LCD_4BIT_MODE ||| LCD_2_LINE ||| LCD_5x8_DOTS)
  let display_control := u8 (LCD_DISPLAY_CTRL ||| LCD_DISPLAY_ON ||| LCD_CURSOR_OFF ||| LCD_BLINK_OFF)
  let d := { d with hlcd := { d.hlcd with display_control := display_control } }
  let d := LCD_SendCommand d d.hlcd.display_control
  let d := LCD_Clear d
  let entry_mode := u8 (LCD_ENTRY_MODE ||| LCD_ENTRY_LEFT ||| LCD_ENTRY_SHIFT_DEC)
  let d := { d with hlcd := { d.hlcd with entry_mode := entry_mode } }
  let d := LCD_SendCommand d d.hlcd.entry_mode
  let d := HAL_Delay d 2
  let d := LCD_LoadDefaultChars d
  (d, HAL_StatusTypeDef.HAL_OK)

/-! ## Animation engine -/

/-- The enumeration `LCD_AnimationType`. -/
inductive LCD_AnimationType where
  | ANIM_NONE
  | ANIM_ARROW_RIGHT
  | ANIM_ARROW_LEFT
  | ANIM_ARROW_BOUNCE
  | ANIM_SPINNER
  | ANIM_PROGRESS
  deriving DecidableEq, Repr

/-- The struct `LCD_Animation`; `last_update` and `speed` are `uint32_t`. -/
structure LCD_Animation where
  type : LCD_AnimationType
  row : Nat
  col : Nat
  position : Nat
  direction : Nat
  last_update : Nat
  speed : Nat
  deriving DecidableEq, Repr

/-- Source lines 293-296. -/
def LCD_DrawArrow (d : Dev) (row col : Nat) (left : Bool) : Dev :=
  let d := LCD_SetCursor d row col
  LCD_PrintCustomChar d (if left then CHAR_ARROW_LEFT else CHAR_ARROW_RIGHT)

/-- Source lines 299-302. -/
def LCD_DrawSpinner (d : Dev) (row col state : Nat) : Dev :=
  let d := LCD_SetCursor d row col
  LCD_PrintChar d (SPINNER_CHARS.getD (state % 4) 0)

/-- Source lines 250-258; `tick` is the value `HAL_GetTick()` returns. -/
def LCD_InitAnimation (type : LCD_AnimationType) (row col speed tick : Nat) : LCD_Animation :=
  { type := type, row := row, col := col, position := 0, direction := 1,
    last_update := tick, speed := speed }

/-- Source lines 261-290.  `tick` is the reading of `HAL_GetTick()` in the test of line
262 and `tick2` the reading stored in line 264; the subtraction is in `uint32_t`, and
`position += direction ? 1 : -1` is computed in `int` and stored into a `uint8_t`. -/
def LCD_UpdateAnimation (d : Dev) (anim : LCD_Animation) (tick tick2 : Nat) :
    Dev × LCD_Animation :=
  if (tick + 4294967296 - anim.last_update % 4294967296) % 4294967296 < anim.speed then
    (d, anim)
  else
    let anim := { anim with last_update := tick2 }
    match anim.type with
    | LCD_AnimationType.ANIM_ARROW_RIGHT =>
      (LCD_DrawArrow d anim.row anim.col false, anim)
    | LCD_AnimationType.ANIM_ARROW_LEFT =>
      (LCD_DrawArrow d anim.row anim.col true, anim)
    | LCD_AnimationType.ANIM_ARROW_BOUNCE =>
      let d := LCD_DrawArrow d anim.row (u8 (anim.col + anim.position)) (anim.direction == 0)
      let step : Int := if anim.direction ≠ 0 then 1 else -1
      let anim := { anim with position := Int.toNat (((anim.position : Int) + step) % 256) }
      let anim := if anim.position ≥ 3 then { anim with direction := 0 } else anim
      let anim := if anim.position = 0 then { anim with direction := 1 } else anim
      (d, anim)
    | LCD_AnimationType.ANIM_SPINNER =>
      let d := LCD_DrawSpinner d anim.row anim.col anim.position
      (d, { anim with position := u8 ((anim.position + 1) % 4) })
    | _ => (d, anim)

/-! ## Drawing primitives

The `uint8_t` loop counters below run from 0 up to a bound of at most 255 and so never
wrap; each loop is a fold over the indices it visits. -/

/-- The rendering of the format `"%3d%%"` for a non-negative argument, as the C library
produces it: the decimal digits, padded on the left with spaces to three characters,
then a percent sign. -/
def format_3d_percent (n : Nat) : List Nat :=
  let digits := (Nat.toDigits 10 n).map Char.toNat
  List.replicate (3 - digits.length) 0x20 ++ digits ++ [0x25]

/-- Source lines 308-314 of `LCD_DrawProgressBar`, after the clamp of `percent`: the
positioning, the opening bracket and the `width` cells of the bar.  The product
`percent * width` is computed in `int`; the counter `i` stays below `width`. -/
def LCD_DrawProgressBar_bar (d : Dev) (row col width percent : Nat) : Dev :=
  let d := LCD_SetCursor d row col
  let d := LCD_PrintChar d 0x5B
  let filled := u8 ((percent * width) / 100)
  (List.range width).foldl (fun d i => LCD_PrintChar d (if i < filled then 0x3D else 0x20)) d

/-- Source lines 305-318. -/
def LCD_DrawProgressBar (d : Dev) (row col width percent : Nat) : Dev :=
  let percent := if percent > 100 then 100 else percent
  let d := LCD_DrawProgressBar_bar d row col width percent
  let d := LCD_PrintChar d 0x5D
  LCD_Printf d row (u8 (col + width + 3)) (format_3d_percent percent)

/-- Source lines 321-326. -/
def LCD_ClearRow (d : Dev) (row : Nat) : Dev :=
  let d := LCD_SetCursor d row 0
  (List.range LCD_COLS).foldl (fun d _ => LCD_PrintChar d 0x20) d

/-- Source lines 329-334. -/
def LCD_DrawSeparator (d : Dev) (row : Nat) : Dev :=
  let d := LCD_SetCursor d row 0
  (List.range LCD_COLS).foldl (fun d _ => LCD_PrintChar d 0x2D) d

/-- The C library function `strlen`: the number of bytes before the terminator. -/
def strlen : List Nat → Nat
  | [] => 0
  | c :: str => if c = 0 then 0 else strlen str + 1

/-- Source lines 337-351.  `len` is `strlen(text)` converted to `uint8_t`; the bound
`len - LCD_COLS` of the outer loop is computed in `int` and is positive when the loop is
reached, so the outer loop visits `i = 0 .. len - LCD_COLS`. -/
def LCD_ScrollText (d : Dev) (row : Nat) (text : List Nat) (delay_ms : Nat) : Dev :=
  let len := u8 (strlen text)
  if len ≤ LCD_COLS then
    LCD_PrintAt d row 0 text
  else
    (List.range (Int.toNat ((len : Int) - (LCD_COLS : Int)) + 1)).foldl
      (fun d i =>
        let d := LCD_SetCursor d row 0
        let d := (List.range LCD_COLS).foldl (fun d j => LCD_PrintChar d (text.getD (i + j) 0)) d
        HAL_Delay d delay_ms)
      d

/-- Source lines 354-361.  The test `i < width - 2` is evaluated in `int`, so for a width
below 2 the bound is negative and the loop body never runs. -/
def LCD_DrawBox (d : Dev) (row col width : Nat) : Dev :=
  let d := LCD_SetCursor d row col
  let d := LCD_PrintChar d 0x5B
  let d := (List.range (Int.toNat ((width : Int) - 2))).foldl (fun d _ => LCD_PrintChar d 0x20) d
  LCD_PrintChar d 0x5D

/-! ## Emitted events

What one call of a sending primitive appends to the trace, for a handle `h`.  Only
`hi2c`, `address` and `backlight_state` of `h` influence it. -/

def sentNibble (h : LCD_Handle) (nibble mode : Nat) : List Event :=
  (LCD_SendNibble ⟨h, []⟩ nibble mode).trace

def sentCommand (h : LCD_Handle) (cmd : Nat) : List Event :=
  (LCD_SendCommand ⟨h, []⟩ cmd).trace

def sentData (h : LCD_Handle) (data : Nat) : List Event :=
  (LCD_SendData ⟨h, []⟩ data).trace

/-- The byte that `x |= mask` (argument true) or `x &= ~mask` (argument false) stores
into the 8-bit object `x`, for the one-bit mask `2 ^ k` of type `unsigned int`. -/
def stored_toggle (k x : Nat) (b : Bool) : Nat :=
  if b then u8 (x ||| 2 ^ k) else u8 (x &&& not_u32 (2 ^ k))

/-- A handle with the given bus identity, device address and backlight state, and
zero in every other field. -/
def wire (hi ad bl : Nat) : LCD_Handle := ⟨hi, ad, bl, 0, 0, 0, 0⟩

/-- The handle in the state `LCD_Init` leaves it in, for the bus `hi2c`. -/
def initialHandle (hi2c : Nat) : LCD_Handle := ⟨hi2c, 0x4E, 0x08, 0x0C, 0x06, 0, 0⟩

/-- A handle as `LCD_Init` leaves it, with the cursor switched on afterwards. -/
def sampleDev : Dev := ⟨⟨0, 0x4E, 0x08, 0x0E, 0x06, 0, 0⟩, []⟩

/-! ## Callers of the driver -/

/-- The test of source line 262, negated: the call at clock value `tick` is due. -/
def isDue (anim : LCD_Animation) (tick : Nat) : Bool :=
  !decide ((tick + 4294967296 - anim.last_update % 4294967296) % 4294967296 < anim.speed)

/-- The caller's loop: successive calls of `LCD_UpdateAnimation` on one display and one
animation, one call for each pair of clock readings. -/
def updateAnimation_calls (s : Dev × LCD_Animation) : List (Nat × Nat) → Dev × LCD_Animation
  | [] => s
  | t :: ts => updateAnimation_calls (LCD_UpdateAnimation s.1 s.2 t.1 t.2) ts

/-- The number of calls of the caller's loop that were due, and so were processed. -/
def processed_calls (s : Dev × LCD_Animation) : List (Nat × Nat) → Nat
  | [] => 0
  | t :: ts =>
    (if isDue s.2 t.1 then 1 else 0) + processed_calls (LCD_UpdateAnimation s.1 s.2 t.1 t.2) ts

/-- One call of a public operation of the driver on a handle, with its arguments.  The
animation passed to `LCD_UpdateAnimation` is caller state and may be any value. -/
inductive LCD_Call where
  | Init (hi2c : Nat)
  | Clear
  | Home
  | SetCursor (row col : Nat)
  | Display (on_ : Bool)
  | Cursor (on_ : Bool)
  | Blink (on_ : Bool)
  | Backlight (on_ : Bool)
  | Print (str : List Nat)
  | PrintAt (row col : Nat) (str : List Nat)
  | Printf (row col : Nat) (formatted : List Nat)
  | PrintChar (c : Nat)
  | CreateCustomChar (location : Nat) (charmap : List Nat)
  | LoadDefaultChars
  | PrintCustomChar (location : Nat)
  | UpdateAnimation (anim : LCD_Animation) (tick tick2 : Nat)
  | DrawArrow (row col : Nat) (left : Bool)
  | DrawSpinner (row col state : Nat)
  | DrawProgressBar (row col width percent : Nat)
  | ClearRow (row : Nat)
  | ScrollText (row : Nat) (text : List Nat) (delay_ms : Nat)
  | DrawBox (row col width : Nat)
  | DrawSeparator (row : Nat)

/-- The effect of one call on the display state. -/
def LCD_Call.run (d : Dev) : LCD_Call → Dev
  | .Init hi2c => (LCD_Init d hi2c).1
  | .Clear => LCD_Clear d
  | .Home => LCD_Home d
  | .SetCursor row col => LCD_SetCursor d row col
  | .Display on_ => LCD_Display d on_
  | .Cursor on_ => LCD_Cursor d on_
  | .Blink on_ => LCD_Blink d on_
  | .Backlight on_ => LCD_Backlight d on_
  | .Print str => LCD_Print d str
  | .PrintAt row col str => LCD_PrintAt d row col str
  | .Printf row col formatted => LCD_Printf d row col formatted
  | .PrintChar c => LCD_PrintChar d c
  | .CreateCustomChar location charmap => LCD_CreateCustomChar d location charmap
  | .LoadDefaultChars => LCD_LoadDefaultChars d
  | .PrintCustomChar location => LCD_PrintCustomChar d location
  | .UpdateAnimation anim tick tick2 => (LCD_UpdateAnimation d anim tick tick2).1
  | .DrawArrow row col left => LCD_DrawArrow d row col left
  | .DrawSpinner row col state => LCD_DrawSpinner d row col state
  | .DrawProgressBar row col width percent => LCD_DrawProgressBar d row col width percent
  | .ClearRow row => LCD_ClearRow d row
  | .ScrollText row text delay_ms => LCD_ScrollText d row text delay_ms
  | .DrawBox row col width => LCD_DrawBox d row col width
  | .DrawSeparator row => LCD_DrawSeparator d row

/-- The shadow registers are well formed: `display_control` is a display-control command
(0x08..0x0F), `entry_mode` is 0x06, the backlight state is 0x00 or 0x08, and the row is
on the screen. -/
def LCD_Handle.wellFormed (h : LCD_Handle) : Prop :=
  (0x08 ≤ h.display_control ∧ h.display_control ≤ 0x0F) ∧ h.entry_mode = 0x06 ∧
  (h.backlight_state = 0x00 ∨ h.backlight_state = 0x08) ∧ h.current_row ≤ 3

/-! ## Basic lemmas: every primitive appends to the trace -/

theorem busBytes_append (a b : List Event) : busBytes (a ++ b) = busBytes a ++ busBytes b := by
  induction a with
  | nil => rfl
  | cons e es ih => cases e <;> simp [busBytes, ih]

theorem LCD_SendNibble_eq (d : Dev) (n m : Nat) :
    LCD_SendNibble d n m = ⟨d.hlcd, d.trace ++ sentNibble d.hlcd n m⟩ := by
  simp [LCD_SendNibble, sentNibble, LCD_Pulse, HAL_I2C_Master_Transmit, HAL_Delay]

theorem LCD_SendCommand_eq (d : Dev) (v : Nat) :
    LCD_SendCommand d v = ⟨d.hlcd, d.trace ++ sentCommand d.hlcd v⟩ := by
  simp [LCD_SendCommand, sentCommand, LCD_SendNibble, LCD_Pulse, HAL_I2C_Master_Transmit,
    HAL_Delay]

theorem LCD_SendData_eq (d : Dev) (v : Nat) :
    LCD_SendData d v = ⟨d.hlcd, d.trace ++ sentData d.hlcd v⟩ := by
  simp [LCD_SendData, sentData, LCD_SendNibble, LCD_Pulse, HAL_I2C_Master_Transmit, HAL_Delay]

@[simp] theorem sentNibble_fields (h : LCD_Handle) (dc em r c n m : Nat) :
    sentNibble ⟨h.hi2c, h.address, h.backlight_state, dc, em, r, c⟩ n m = sentNibble h n m := rfl

@[simp] theorem sentCommand_fields (h : LCD_Handle) (dc em r c v : Nat) :
    sentCommand ⟨h.hi2c, h.address, h.backlight_state, dc, em, r, c⟩ v = sentCommand h v := rfl

@[simp] theorem sentData_fields (h : LCD_Handle) (dc em r c v : Nat) :
    sentData ⟨h.hi2c, h.address, h.backlight_state, dc, em, r, c⟩ v = sentData h v := rfl

/-- The bus bytes of a command depend on the handle through the backlight bit only. -/
theorem busBytes_sentCommand (h : LCD_Handle) (v : Nat) :
    busBytes (sentCommand h v) = busBytes (sentCommand ⟨0, 0, h.backlight_state, 0, 0, 0, 0⟩ v) := by
  simp [sentCommand, LCD_SendCommand, LCD_SendNibble, LCD_Pulse, HAL_I2C_Master_Transmit,
    HAL_Delay, busBytes]

theorem busBytes_sentData (h : LCD_Handle) (v : Nat) :
    busBytes (sentData h v) = busBytes (sentData ⟨0, 0, h.backlight_state, 0, 0, 0, 0⟩ v) := by
  simp [sentData, LCD_SendData, LCD_SendNibble, LCD_Pulse, HAL_I2C_Master_Transmit,
    HAL_Delay, busBytes]

/-- Arithmetic of the set-DDRAM-address command on the 80 cells of the screen. -/
theorem ddram_cells : ∀ r < 4, ∀ c < 20,
    c + row_offsets.getD r 0 < 0x80 ∧
    u8 (LCD_DDRAM_ADDR ||| (c + row_offsets.getD r 0)) = 0x80 ||| (c + row_offsets.getD r 0) ∧
    (0x80 ||| (c + row_offsets.getD r 0)) &&& 0x7F = c + row_offsets.getD r 0 ∧
    (0x80 ||| (c + row_offsets.getD r 0)) &&& 0x80 = 0x80 ∧
    0x80 ||| (c + row_offsets.getD r 0) < 256 := by
  decide

theorem LCD_SetCursor_eq (d : Dev) (row col : Nat) :
    LCD_SetCursor d row col =
      ⟨{ d.hlcd with current_row := min row 3, current_col := min col 19 },
        d.trace ++ sentCommand d.hlcd (0x80 ||| (min col 19 + row_offsets.getD (min row 3) 0))⟩ := by
  have hr : (if row ≥ LCD_ROWS then LCD_ROWS - 1 else row) = min row 3 := by
    simp only [LCD_ROWS]; split <;> omega
  have hc : (if col ≥ LCD_COLS then LCD_COLS - 1 else col) = min col 19 := by
    simp only [LCD_COLS]; split <;> omega
  have hcell := (ddram_cells (min row 3) (by omega) (min col 19) (by omega)).2.1
  simp only [LCD_SetCursor, hr, hc, LCD_SendCommand_eq, sentCommand_fields, hcell]

/-! ## Cursor positioning -/

/-- C1: after `LCD_SetCursor(h, row, col)` the shadow cursor is `(min row 3, min col 19)`:
a row up to 3 and a column up to 19 are stored as given, a larger row saturates to 3 and
a larger column to 19 (no wrap), and no other field of the handle changes; in
particular `backlight_state`, `display_control` and `entry_mode` keep their values. -/
theorem LCD_SetCursor_shadow (d : Dev) (row col : Nat) :
    (LCD_SetCursor d row col).hlcd.current_row = min row 3 ∧
    (LCD_SetCursor d row col).hlcd.current_col = min col 19 ∧
    (LCD_SetCursor d row col).hlcd.current_row = (if row ≤ 3 then row else 3) ∧
    (LCD_SetCursor d row col).hlcd.current_col = (if col ≤ 19 then col else 19) ∧
    (LCD_SetCursor d row col).hlcd.backlight_state = d.hlcd.backlight_state ∧
    (LCD_SetCursor d row col).hlcd.display_control = d.hlcd.display_control ∧
    (LCD_SetCursor d row col).hlcd.entry_mode = d.hlcd.entry_mode ∧
    (LCD_SetCursor d row col).hlcd =
      { d.hlcd with current_row := min row 3, current_col := min col 19 } := by
  rw [LCD_SetCursor_eq]
  refine ⟨rfl, rfl, ?_, ?_, rfl, rfl, rfl, rfl⟩
  · show min row 3 = _
    split <;> omega
  · show min col 19 = _
    split <;> omega

/-- C2: `LCD_SetCursor` appends to the trace exactly one command, the byte
`0x80 | (c + off[r])` with `r = min row 3`, `c = min col 19` and
`off = [0x00, 0x40, 0x14, 0x54]`.  The address `c + off[r]` is below `0x80`, so the
command fits in 8 bits, keeps the set-address bit, and carries the address unchanged
in its low 7 bits. -/
theorem LCD_SetCursor_command (d : Dev) (row col : Nat) :
    (LCD_SetCursor d row col).trace =
      d.trace ++
        sentCommand d.hlcd (0x80 ||| (min col 19 + [0x00, 0x40, 0x14, 0x54].getD (min row 3) 0)) ∧
    min col 19 + [0x00, 0x40, 0x14, 0x54].getD (min row 3) 0 < 0x80 ∧
    (0x80 ||| (min col 19 + [0x00, 0x40, 0x14, 0x54].getD (min row 3) 0)) &&& 0x7F =
      min col 19 + [0x00, 0x40, 0x14, 0x54].getD (min row 3) 0 ∧
    (0x80 ||| (min col 19 + [0x00, 0x40, 0x14, 0x54].getD (min row 3) 0)) &&& 0x80 = 0x80 ∧
    0x80 ||| (min col 19 + [0x00, 0x40, 0x14, 0x54].getD (min row 3) 0) < 256 := by
  have h := ddram_cells (min row 3) (by omega) (min col 19) (by omega)
  rw [LCD_SetCursor_eq]
  exact ⟨rfl, h.1, h.2.2.1, h.2.2.2.1, h.2.2.2.2⟩

/-! ## Display-control toggles -/

set_option maxRecDepth 100000 in
/-- Setting bit `k` of a byte: the stored result has bit `k` set and every other bit as
before. -/
theorem set_bit_u8 : ∀ k < 3, ∀ dc < 256,
    u8 (dc ||| 2 ^ k) < 256 ∧
    ∀ i < 8, (u8 (dc ||| 2 ^ k)).testBit i = (if i = k then true else dc.testBit i) := by
  decide

set_option maxRecDepth 100000 in
/-- Clearing bit `k` of a byte with `&= ~mask`: the stored result has bit `k` clear and
every other bit as before. -/
theorem clear_bit_u8 : ∀ k < 3, ∀ dc < 256,
    u8 (dc &&& not_u32 (2 ^ k)) < 256 ∧
    ∀ i < 8, (u8 (dc &&& not_u32 (2 ^ k))).testBit i = (if i = k then false else dc.testBit i) := by
  decide

theorem testBit_of_low_bits (x y : Nat) (k : Nat) (b : Bool) (hx : x < 256) (hy : y < 256)
    (h : ∀ i < 8, y.testBit i = (if i = k then b else x.testBit i)) (hk : k < 8) (i : Nat) :
    y.testBit i = (if i = k then b else x.testBit i) := by
  by_cases hi : i < 8
  · exact h i hi
  · have h256 : 256 ≤ 2 ^ i := by
      calc 256 = 2 ^ 8 := by norm_num
        _ ≤ 2 ^ i := Nat.pow_le_pow_right (by norm_num) (by omega)
    have hik : i ≠ k := by omega
    rw [Nat.testBit_lt_two_pow (lt_of_lt_of_le hy h256),
      Nat.testBit_lt_two_pow (lt_of_lt_of_le hx h256)]
    simp [hik]

/-- What a toggle of bit `k` stores in `display_control`. -/
theorem stored_toggle_testBit (k : Nat) (hk : k < 3) (dc : Nat) (hdc : dc < 256) (b : Bool)
    (i : Nat) : (stored_toggle k dc b).testBit i = (if i = k then b else dc.testBit i) := by
  cases b
  · have h := clear_bit_u8 k hk dc hdc
    exact testBit_of_low_bits dc _ k false hdc h.1 h.2 (by omega) i
  · have h := set_bit_u8 k hk dc hdc
    exact testBit_of_low_bits dc _ k true hdc h.1 h.2 (by omega) i

theorem LCD_Display_eq (d : Dev) (b : Bool) :
    LCD_Display d b =
      ⟨{ d.hlcd with display_control := stored_toggle 2 d.hlcd.display_control b },
        d.trace ++ sentCommand d.hlcd (stored_toggle 2 d.hlcd.display_control b)⟩ := by
  cases b <;> simp [LCD_Display, LCD_SendCommand_eq, LCD_DISPLAY_ON, stored_toggle]

theorem LCD_Cursor_eq (d : Dev) (b : Bool) :
    LCD_Cursor d b =
      ⟨{ d.hlcd with display_control := stored_toggle 1 d.hlcd.display_control b },
        d.trace ++ sentCommand d.hlcd (stored_toggle 1 d.hlcd.display_control b)⟩ := by
  cases b <;> simp [LCD_Cursor, LCD_SendCommand_eq, LCD_CURSOR_ON, stored_toggle]

theorem LCD_Blink_eq (d : Dev) (b : Bool) :
    LCD_Blink d b =
      ⟨{ d.hlcd with display_control := stored_toggle 0 d.hlcd.display_control b },
        d.trace ++ sentCommand d.hlcd (stored_toggle 0 d.hlcd.display_control b)⟩ := by
  cases b <;> simp [LCD_Blink, LCD_SendCommand_eq, LCD_BLINK_ON, stored_toggle]

/-- C3: for a handle whose `display_control` is a byte and for either value of the
argument, each of `LCD_Display`, `LCD_Cursor` and `LCD_Blink` gives its own bit of
`display_control` (bit 2 = 0x04, bit 1 = 0x02, bit 0 = 0x01) the value of the argument,
leaves every other bit of `display_control` and every other field of the handle as it
was, and appends to the trace exactly one command, whose byte is the new
`display_control`. -/
theorem display_control_toggles (d : Dev) (b : Bool) (hdc : d.hlcd.display_control < 256) :
    ((∀ i, (LCD_Display d b).hlcd.display_control.testBit i =
          (if i = 2 then b else d.hlcd.display_control.testBit i)) ∧
      (LCD_Display d b).hlcd =
        { d.hlcd with display_control := (LCD_Display d b).hlcd.display_control } ∧
      (LCD_Display d b).trace =
        d.trace ++ sentCommand d.hlcd (LCD_Display d b).hlcd.display_control) ∧
    ((∀ i, (LCD_Cursor d b).hlcd.display_control.testBit i =
          (if i = 1 then b else d.hlcd.display_control.testBit i)) ∧
      (LCD_Cursor d b).hlcd =
        { d.hlcd with display_control := (LCD_Cursor d b).hlcd.display_control } ∧
      (LCD_Cursor d b).trace =
        d.trace ++ sentCommand d.hlcd (LCD_Cursor d b).hlcd.display_control) ∧
    ((∀ i, (LCD_Blink d b).hlcd.display_control.testBit i =
          (if i = 0 then b else d.hlcd.display_control.testBit i)) ∧
      (LCD_Blink d b).hlcd =
        { d.hlcd with display_control := (LCD_Blink d b).hlcd.display_control } ∧
      (LCD_Blink d b).trace =
        d.trace ++ sentCommand d.hlcd (LCD_Blink d b).hlcd.display_control) := by
  refine ⟨⟨?_, ?_, ?_⟩, ⟨?_, ?_, ?_⟩, ⟨?_, ?_, ?_⟩⟩
  · intro i; rw [LCD_Display_eq]; exact stored_toggle_testBit 2 (by omega) _ hdc b i
  · rw [LCD_Display_eq]
  · rw [LCD_Display_eq]
  · intro i; rw [LCD_Cursor_eq]; exact stored_toggle_testBit 1 (by omega) _ hdc b i
  · rw [LCD_Cursor_eq]
  · rw [LCD_Cursor_eq]
  · intro i; rw [LCD_Blink_eq]; exact stored_toggle_testBit 0 (by omega) _ hdc b i
  · rw [LCD_Blink_eq]
  · rw [LCD_Blink_eq]

/-- Witness of C3: blink is turned on while the cursor is on (`display_control = 0x0E`);
the cursor bit stays set and the new value is `0x0F`. -/
theorem display_control_toggles_witness :
    sampleDev.hlcd.display_control < 256 ∧
    (LCD_Blink sampleDev true).hlcd.display_control = 0x0F ∧
    (∀ i, (LCD_Blink sampleDev true).hlcd.display_control.testBit i =
      (if i = 0 then true else sampleDev.hlcd.display_control.testBit i)) :=
  ⟨by decide, by decide, (display_control_toggles sampleDev true (by decide)).2.2.1⟩

/-! ## Nibble encoding -/

set_option maxRecDepth 100000 in
/-- The six bus bytes of a command and of a data byte, for both backlight states and
every byte value. -/
theorem frame_bytes : ∀ bl ∈ [0x00, 0x08], ∀ v < 256,
    busBytes (sentCommand ⟨0, 0, bl, 0, 0, 0, 0⟩ v) =
      [(v &&& 0xF0) ||| bl, ((v &&& 0xF0) ||| bl) ||| 0x04, (v &&& 0xF0) ||| bl,
       ((v <<< 4) &&& 0xF0) ||| bl, (((v <<< 4) &&& 0xF0) ||| bl) ||| 0x04,
       ((v <<< 4) &&& 0xF0) ||| bl] ∧
    busBytes (sentData ⟨0, 0, bl, 0, 0, 0, 0⟩ v) =
      [((v &&& 0xF0) ||| bl) ||| 0x01, (((v &&& 0xF0) ||| bl) ||| 0x04) ||| 0x01,
       ((v &&& 0xF0) ||| bl) ||| 0x01,
       (((v <<< 4) &&& 0xF0) ||| bl) ||| 0x01, ((((v <<< 4) &&& 0xF0) ||| bl) ||| 0x04) ||| 0x01,
       (((v <<< 4) &&& 0xF0) ||| bl) ||| 0x01] ∧
    ∀ x ∈ [(v &&& 0xF0) ||| bl, ((v &&& 0xF0) ||| bl) ||| 0x04,
           ((v <<< 4) &&& 0xF0) ||| bl, (((v <<< 4) &&& 0xF0) ||| bl) ||| 0x04],
      x &&& 0x01 = 0 ∧ (x ||| 0x01) ^^^ x = 0x01 ∧ x < 256 := by
  decide

/-- C4: for a byte `v` and a handle whose backlight state `bl` is 0x00 or 0x08,
`LCD_SendCommand` puts exactly six bytes on the bus, `H, H|0x04, H, L, L|0x04, L` with
`H = (v & 0xF0) | bl` and `L = ((v << 4) & 0xF0) | bl`; `LCD_SendData` puts the same six
bytes on the bus, each with bit 0x01 (register select) set in addition.  In the command
bytes that bit is clear, and a data byte and its command byte differ in that bit only.
Neither call changes the handle. -/
theorem send_command_data_bytes (d : Dev) (v : Nat) (hv : v < 256)
    (hbl : d.hlcd.backlight_state = 0x00 ∨ d.hlcd.backlight_state = 0x08) :
    busBytes (LCD_SendCommand d v).trace =
      busBytes d.trace ++
        [(v &&& 0xF0) ||| d.hlcd.backlight_state,
         ((v &&& 0xF0) ||| d.hlcd.backlight_state) ||| 0x04,
         (v &&& 0xF0) ||| d.hlcd.backlight_state,
         ((v <<< 4) &&& 0xF0) ||| d.hlcd.backlight_state,
         (((v <<< 4) &&& 0xF0) ||| d.hlcd.backlight_state) ||| 0x04,
         ((v <<< 4) &&& 0xF0) ||| d.hlcd.backlight_state] ∧
    busBytes (LCD_SendData d v).trace =
      busBytes d.trace ++
        [((v &&& 0xF0) ||| d.hlcd.backlight_state) ||| 0x01,
         (((v &&& 0xF0) ||| d.hlcd.backlight_state) ||| 0x04) ||| 0x01,
         ((v &&& 0xF0) ||| d.hlcd.backlight_state) ||| 0x01,
         (((v <<< 4) &&& 0xF0) ||| d.hlcd.backlight_state) ||| 0x01,
         ((((v <<< 4) &&& 0xF0) ||| d.hlcd.backlight_state) ||| 0x04) ||| 0x01,
         (((v <<< 4) &&& 0xF0) ||| d.hlcd.backlight_state) ||| 0x01] ∧
    (∀ x ∈ [(v &&& 0xF0) ||| d.hlcd.backlight_state,
            ((v &&& 0xF0) ||| d.hlcd.backlight_state) ||| 0x04,
            ((v <<< 4) &&& 0xF0) ||| d.hlcd.backlight_state,
            (((v <<< 4) &&& 0xF0) ||| d.hlcd.backlight_state) ||| 0x04],
      x &&& 0x01 = 0 ∧ (x ||| 0x01) ^^^ x = 0x01 ∧ x < 256) ∧
    (LCD_SendCommand d v).hlcd = d.hlcd ∧ (LCD_SendData d v).hlcd = d.hlcd := by
  have hmem : d.hlcd.backlight_state ∈ [0x00, 0x08] := by
    rcases hbl with h | h <;> simp [h]
  have h := frame_bytes d.hlcd.backlight_state hmem v hv
  refine ⟨?_, ?_, h.2.2, ?_, ?_⟩
  · rw [LCD_SendCommand_eq, busBytes_append, busBytes_sentCommand, h.1]
  · rw [LCD_SendData_eq, busBytes_append, busBytes_sentData, h.2.1]
  · rw [LCD_SendCommand_eq]
  · rw [LCD_SendData_eq]

/-- Witness of C4: the byte 0xA5 with the backlight on. -/
theorem send_command_data_bytes_witness :
    (0xA5 < 256 ∧ (sampleDev.hlcd.backlight_state = 0x00 ∨ sampleDev.hlcd.backlight_state = 0x08)) ∧
    busBytes (LCD_SendCommand sampleDev 0xA5).trace = [0xA8, 0xAC, 0xA8, 0x58, 0x5C, 0x58] ∧
    busBytes (LCD_SendData sampleDev 0xA5).trace = [0xA9, 0xAD, 0xA9, 0x59, 0x5D, 0x59] :=
  ⟨⟨by decide, by decide⟩,
    (send_command_data_bytes sampleDev 0xA5 (by decide) (by decide)).1,
    (send_command_data_bytes sampleDev 0xA5 (by decide) (by decide)).2.1⟩

/-! ## Glyph upload and initialisation -/

theorem sentNibble_wire (hi ad bl dc em r c n m : Nat) :
    sentNibble ⟨hi, ad, bl, dc, em, r, c⟩ n m = sentNibble (wire hi ad bl) n m := rfl

theorem sentCommand_wire (hi ad bl dc em r c v : Nat) :
    sentCommand ⟨hi, ad, bl, dc, em, r, c⟩ v = sentCommand (wire hi ad bl) v := rfl

theorem sentData_wire (hi ad bl dc em r c v : Nat) :
    sentData ⟨hi, ad, bl, dc, em, r, c⟩ v = sentData (wire hi ad bl) v := rfl

theorem foldl_SendData (g : Nat → Nat) (l : List Nat) (d : Dev) :
    l.foldl (fun d i => LCD_SendData d (g i)) d =
      ⟨d.hlcd, d.trace ++ (l.map g).flatMap (sentData d.hlcd)⟩ := by
  induction l generalizing d with
  | nil => simp
  | cons i l ih => rw [List.foldl_cons, ih, LCD_SendData_eq]; simp

theorem LCD_Home_eq (d : Dev) :
    LCD_Home d = ⟨{ d.hlcd with current_row := 0, current_col := 0 },
      d.trace ++ sentCommand d.hlcd 0x02 ++ [Event.delay 2]⟩ := by
  simp [LCD_Home, LCD_SendCommand_eq, HAL_Delay, LCD_HOME]

theorem LCD_Clear_eq (d : Dev) :
    LCD_Clear d = ⟨{ d.hlcd with current_row := 0, current_col := 0 },
      d.trace ++ sentCommand d.hlcd 0x01 ++ [Event.delay 2]⟩ := by
  simp [LCD_Clear, LCD_SendCommand_eq, HAL_Delay, LCD_CLEAR]

theorem cgram_command : ∀ s < 8, u8 (LCD_CGRAM_ADDR ||| (s <<< 3)) = 0x40 ||| (s <<< 3) := by
  decide

theorem LCD_CreateCustomChar_eq (d : Dev) (location : Nat) (charmap : List Nat) :
    LCD_CreateCustomChar d location charmap =
      ⟨{ d.hlcd with current_row := 0, current_col := 0 },
        d.trace ++ sentCommand d.hlcd (0x40 ||| ((location &&& 0x07) <<< 3)) ++
          ((List.range 8).map (fun i => charmap.getD i 0)).flatMap (sentData d.hlcd) ++
          sentCommand d.hlcd 0x02 ++ [Event.delay 2]⟩ := by
  have h7 : location &&& 0x07 < 8 := Nat.lt_succ_of_le Nat.and_le_right
  have hu : u8 (location &&& 0x07) = location &&& 0x07 := Nat.mod_eq_of_lt (by omega)
  simp only [LCD_CreateCustomChar, hu, cgram_command _ h7, LCD_SendCommand_eq, foldl_SendData,
    LCD_Home_eq, List.append_assoc]

/-- Reading an 8-byte array at the indices 0..7 gives back the array. -/
theorem read_eight (charmap : List Nat) (h : charmap.length = 8) :
    (List.range 8).map (fun i => charmap.getD i 0) = charmap := by
  match charmap, h with
  | [_, _, _, _, _, _, _, _], _ => rfl

theorem LCD_Init_hlcd (d : Dev) (hi2c : Nat) :
    (LCD_Init d hi2c).1.hlcd = initialHandle hi2c := by
  simp [LCD_Init, HAL_Delay, LCD_SendNibble_eq, LCD_SendCommand_eq, LCD_Clear_eq,
    LCD_LoadDefaultChars, LCD_CreateCustomChar_eq, List.range, List.range.loop,
    u8, LCD_I2C_ADDR, LCD_BACKLIGHT, LCD_DISPLAY_CTRL, LCD_DISPLAY_ON, LCD_CURSOR_OFF,
    LCD_BLINK_OFF, LCD_ENTRY_MODE, LCD_ENTRY_LEFT, LCD_ENTRY_SHIFT_DEC, initialHandle]

/-- Everything `LCD_Init` appends to the trace, for the bus `hi2c`. -/
theorem LCD_Init_trace (d : Dev) (hi2c : Nat) :
    (LCD_Init d hi2c).1.trace =
      d.trace ++ [Event.delay 50] ++
        sentNibble (initialHandle hi2c) 0x03 0 ++ [Event.delay 5] ++
        sentNibble (initialHandle hi2c) 0x03 0 ++ [Event.delay 1] ++
        sentNibble (initialHandle hi2c) 0x03 0 ++ [Event.delay 1] ++
        sentNibble (initialHandle hi2c) 0x02 0 ++ [Event.delay 1] ++
        sentCommand (initialHandle hi2c) 0x28 ++
        sentCommand (initialHandle hi2c) 0x0C ++
        sentCommand (initialHandle hi2c) 0x01 ++ [Event.delay 2] ++
        sentCommand (initialHandle hi2c) 0x06 ++ [Event.delay 2] ++
        (List.range 8).flatMap (fun i =>
          sentCommand (initialHandle hi2c) (0x40 ||| (i <<< 3)) ++
          (CHAR_PATTERNS.getD i []).flatMap (sentData (initialHandle hi2c)) ++
          sentCommand (initialHandle hi2c) 0x02 ++ [Event.delay 2]) := by
  simp [LCD_Init, HAL_Delay, LCD_SendNibble_eq, LCD_SendCommand_eq, LCD_Clear_eq,
    LCD_LoadDefaultChars, LCD_CreateCustomChar_eq, List.range, List.range.loop,
    u8, LCD_I2C_ADDR, LCD_BACKLIGHT, LCD_DISPLAY_CTRL, LCD_DISPLAY_ON, LCD_CURSOR_OFF,
    LCD_BLINK_OFF, LCD_ENTRY_MODE, LCD_ENTRY_LEFT, LCD_ENTRY_SHIFT_DEC,
    LCD_FUNCTION_SET, LCD_4BIT_MODE, LCD_2_LINE, LCD_5x8_DOTS, CHAR_PATTERNS,
    initialHandle, sentCommand_wire, sentData_wire, sentNibble_wire]
  rfl

/-- The bus bytes of the power-up delay and the four bring-up nibble writes. -/
theorem bringup_bytes (hi2c : Nat) :
    busBytes ([Event.delay 50] ++
        sentNibble (initialHandle hi2c) 0x03 0 ++ [Event.delay 5] ++
        sentNibble (initialHandle hi2c) 0x03 0 ++ [Event.delay 1] ++
        sentNibble (initialHandle hi2c) 0x03 0 ++ [Event.delay 1] ++
        sentNibble (initialHandle hi2c) 0x02 0 ++ [Event.delay 1]) =
      [0x0B, 0x0F, 0x0B, 0x0B, 0x0F, 0x0B, 0x0B, 0x0F, 0x0B, 0x0A, 0x0E, 0x0A] := by
  simp [sentNibble, LCD_SendNibble, LCD_Pulse, HAL_I2C_Master_Transmit, HAL_Delay, busBytes,
    initialHandle, u8, not_u32, LCD_EN]
  decide

/-- C5: `LCD_Init` returns `HAL_OK` and leaves, on any handle, `display_control = 0x0C`,
`entry_mode = 0x06`, `backlight_state = 0x08` and the cursor at (0, 0).  After the
power-up delay and the four bring-up nibbles it sends, in this order, the commands
0x28 (function set), 0x0C (display control), 0x01 (clear) and 0x06 (entry mode), and
then uploads the eight default glyphs: for each slot `i` of 0..7 the command
`0x40 | (i << 3)`, the eight bytes of `CHAR_PATTERNS[i]` as data, and the command 0x02. -/
theorem LCD_Init_result (d : Dev) (hi2c : Nat) :
    (LCD_Init d hi2c).2 = HAL_StatusTypeDef.HAL_OK ∧
    (LCD_Init d hi2c).1.hlcd.display_control = 0x0C ∧
    (LCD_Init d hi2c).1.hlcd.entry_mode = 0x06 ∧
    (LCD_Init d hi2c).1.hlcd.backlight_state = 0x08 ∧
    (LCD_Init d hi2c).1.hlcd.current_row = 0 ∧
    (LCD_Init d hi2c).1.hlcd.current_col = 0 ∧
    (LCD_Init d hi2c).1.hlcd = ⟨hi2c, 0x4E, 0x08, 0x0C, 0x06, 0, 0⟩ ∧
    (LCD_Init d hi2c).1.trace =
      d.trace ++ [Event.delay 50] ++
        sentNibble (initialHandle hi2c) 0x03 0 ++ [Event.delay 5] ++
        sentNibble (initialHandle hi2c) 0x03 0 ++ [Event.delay 1] ++
        sentNibble (initialHandle hi2c) 0x03 0 ++ [Event.delay 1] ++
        sentNibble (initialHandle hi2c) 0x02 0 ++ [Event.delay 1] ++
        sentCommand (initialHandle hi2c) 0x28 ++
        sentCommand (initialHandle hi2c) 0x0C ++
        sentCommand (initialHandle hi2c) 0x01 ++ [Event.delay 2] ++
        sentCommand (initialHandle hi2c) 0x06 ++ [Event.delay 2] ++
        (List.range 8).flatMap (fun i =>
          sentCommand (initialHandle hi2c) (0x40 ||| (i <<< 3)) ++
          (CHAR_PATTERNS.getD i []).flatMap (sentData (initialHandle hi2c)) ++
          sentCommand (initialHandle hi2c) 0x02 ++ [Event.delay 2]) := by
  have hh := LCD_Init_hlcd d hi2c
  refine ⟨rfl, ?_, ?_, ?_, ?_, ?_, hh, LCD_Init_trace d hi2c⟩ <;> rw [hh] <;> rfl

/-- C6 (what the code does): on every handle and bus, the twelve bus bytes of the four
bring-up nibble writes of `LCD_Init` are 0x0B, 0x0F, 0x0B three times and then 0x0A, 0x0E,
0x0A.  Bits 7..4 of every one of them are 0 (not 0x3 or 0x2): the values 0x03 and 0x02
are passed unshifted and land on bits 1..0, so the read/write bit 0x02 is set in all
twelve bytes and the register-select bit 0x01 in the first nine. -/
theorem LCD_Init_bringup_bytes (h : LCD_Handle) (hi2c : Nat) :
    (busBytes (LCD_Init ⟨h, []⟩ hi2c).1.trace).take 12 =
      [0x0B, 0x0F, 0x0B, 0x0B, 0x0F, 0x0B, 0x0B, 0x0F, 0x0B, 0x0A, 0x0E, 0x0A] ∧
    ((busBytes (LCD_Init ⟨h, []⟩ hi2c).1.trace).take 12).map (fun x => x >>> 4) =
      [0, 0, 0, 0, 0, 0, 0, 0, 0, 0, 0, 0] ∧
    ((busBytes (LCD_Init ⟨h, []⟩ hi2c).1.trace).take 12).map (fun x => x &&& 0x02) =
      [2, 2, 2, 2, 2, 2, 2, 2, 2, 2, 2, 2] ∧
    ((busBytes (LCD_Init ⟨h, []⟩ hi2c).1.trace).take 12).map (fun x => x &&& 0x01) =
      [1, 1, 1, 1, 1, 1, 1, 1, 1, 0, 0, 0] := by
  have key : (busBytes (LCD_Init ⟨h, []⟩ hi2c).1.trace).take 12 =
      [0x0B, 0x0F, 0x0B, 0x0B, 0x0F, 0x0B, 0x0B, 0x0F, 0x0B, 0x0A, 0x0E, 0x0A] := by
    rw [LCD_Init_trace]
    simp only [List.nil_append, List.append_assoc]
    rw [← List.append_assoc, ← List.append_assoc, ← List.append_assoc, ← List.append_assoc,
      ← List.append_assoc, ← List.append_assoc, ← List.append_assoc, ← List.append_assoc]
    rw [busBytes_append, bringup_bytes]
    rfl
  rw [key]
  exact ⟨rfl, rfl, rfl, rfl⟩

/-- C7: for an 8-byte bitmap, `LCD_CreateCustomChar(h, slot, bitmap)` appends to the trace
exactly the command `0x40 | ((slot & 0x07) << 3)`, the eight bitmap bytes as data in index
order, the return-home command 0x02 and its 2 ms delay.  Afterwards the cursor is (0, 0)
and no other field of the handle has changed; a slot of 8 or more acts as `slot & 0x07`. -/
theorem LCD_CreateCustomChar_effect (d : Dev) (slot : Nat) (bitmap : List Nat)
    (hlen : bitmap.length = 8) :
    (LCD_CreateCustomChar d slot bitmap).trace =
      d.trace ++ sentCommand d.hlcd (0x40 ||| ((slot &&& 0x07) <<< 3)) ++
        bitmap.flatMap (sentData d.hlcd) ++ sentCommand d.hlcd 0x02 ++ [Event.delay 2] ∧
    (LCD_CreateCustomChar d slot bitmap).hlcd =
      { d.hlcd with current_row := 0, current_col := 0 } ∧
    (LCD_CreateCustomChar d slot bitmap).hlcd.display_control = d.hlcd.display_control ∧
    (LCD_CreateCustomChar d slot bitmap).hlcd.entry_mode = d.hlcd.entry_mode ∧
    (LCD_CreateCustomChar d slot bitmap).hlcd.backlight_state = d.hlcd.backlight_state ∧
    LCD_CreateCustomChar d slot bitmap = LCD_CreateCustomChar d (slot &&& 0x07) bitmap := by
  have hidem : slot &&& 0x07 &&& 0x07 = slot &&& 0x07 := by
    rw [Nat.land_assoc]; rfl
  refine ⟨?_, ?_, ?_, ?_, ?_, ?_⟩
  · rw [LCD_CreateCustomChar_eq, read_eight bitmap hlen]
  · rw [LCD_CreateCustomChar_eq]
  · rw [LCD_CreateCustomChar_eq]
  · rw [LCD_CreateCustomChar_eq]
  · rw [LCD_CreateCustomChar_eq]
  · rw [LCD_CreateCustomChar_eq, LCD_CreateCustomChar_eq, hidem]

/-- Witness of C7: the bell glyph written to slot 11, which lands in slot 3. -/
theorem LCD_CreateCustomChar_effect_witness :
    [0x04, 0x0E, 0x0E, 0x0E, 0x1F, 0x00, 0x04, 0x00].length = 8 ∧
    LCD_CreateCustomChar sampleDev 11 [0x04, 0x0E, 0x0E, 0x0E, 0x1F, 0x00, 0x04, 0x00] =
      LCD_CreateCustomChar sampleDev (11 &&& 0x07) [0x04, 0x0E, 0x0E, 0x0E, 0x1F, 0x00, 0x04, 0x00] :=
  ⟨rfl, (LCD_CreateCustomChar_effect sampleDev 11 [0x04, 0x0E, 0x0E, 0x0E, 0x1F, 0x00, 0x04, 0x00]
    rfl).2.2.2.2.2⟩

theorem LCD_PrintCustomChar_eq (d : Dev) (location : Nat) :
    LCD_PrintCustomChar d location =
      ⟨{ d.hlcd with current_col := (d.hlcd.current_col + 1) % 256 },
        d.trace ++ sentData d.hlcd (location &&& 0x07)⟩ := by
  simp [LCD_PrintCustomChar, LCD_SendData_eq, u8]

/-- C8: for every slot, `LCD_CreateCustomChar(h, slot, bitmap)` followed by
`LCD_PrintCustomChar(h, slot)` ends the trace with the data byte `slot & 0x07`, and leaves
the cursor at row 0, column 1.  On any state `LCD_PrintCustomChar` emits that one data
byte and changes nothing in the handle but `current_col`, which it increments as an 8-bit
counter. -/
theorem create_then_print_custom_char (d : Dev) (slot : Nat) (bitmap : List Nat) :
    (LCD_PrintCustomChar (LCD_CreateCustomChar d slot bitmap) slot).trace =
      (LCD_CreateCustomChar d slot bitmap).trace ++ sentData d.hlcd (slot &&& 0x07) ∧
    (LCD_PrintCustomChar (LCD_CreateCustomChar d slot bitmap) slot).hlcd.current_col = 1 ∧
    (LCD_PrintCustomChar (LCD_CreateCustomChar d slot bitmap) slot).hlcd.current_row = 0 ∧
    (LCD_PrintCustomChar d slot).trace = d.trace ++ sentData d.hlcd (slot &&& 0x07) ∧
    (LCD_PrintCustomChar d slot).hlcd =
      { d.hlcd with current_col := (d.hlcd.current_col + 1) % 256 } := by
  refine ⟨?_, ?_, ?_, ?_, ?_⟩
  · rw [LCD_PrintCustomChar_eq, LCD_CreateCustomChar_eq]; rfl
  · rw [LCD_PrintCustomChar_eq, LCD_CreateCustomChar_eq]; rfl
  · rw [LCD_PrintCustomChar_eq, LCD_CreateCustomChar_eq]
  · rw [LCD_PrintCustomChar_eq]
  · rw [LCD_PrintCustomChar_eq]

/-! ## Printing loops -/

@[simp] theorem sentData_fields_fun (h : LCD_Handle) (dc em r c : Nat) :
    sentData ⟨h.hi2c, h.address, h.backlight_state, dc, em, r, c⟩ = sentData h := rfl

theorem LCD_PrintChar_eq (d : Dev) (c : Nat) :
    LCD_PrintChar d c =
      ⟨{ d.hlcd with current_col := (d.hlcd.current_col + 1) % 256 },
        d.trace ++ sentData d.hlcd c⟩ := by
  simp [LCD_PrintChar, LCD_SendData_eq, u8]

/-- Printing the characters of a list one by one. -/
theorem foldl_PrintChar (l : List Nat) (d : Dev) (hcol : d.hlcd.current_col < 256) :
    l.foldl LCD_PrintChar d =
      ⟨{ d.hlcd with current_col := (d.hlcd.current_col + l.length) % 256 },
        d.trace ++ l.flatMap (sentData d.hlcd)⟩ := by
  induction l generalizing d with
  | nil => simp [Nat.mod_eq_of_lt hcol]
  | cons c l ih =>
    rw [List.foldl_cons, ih _ (by rw [LCD_PrintChar_eq]; exact Nat.mod_lt _ (by norm_num)),
      LCD_PrintChar_eq]
    simp [Nat.add_assoc, Nat.add_comm 1]

/-- `LCD_Print` on a string without a zero byte prints every character. -/
theorem LCD_Print_eq_foldl (s : List Nat) (d : Dev) (hs : ∀ c ∈ s, c ≠ 0) :
    LCD_Print d s = s.foldl LCD_PrintChar d := by
  induction s generalizing d with
  | nil => rfl
  | cons c s ih =>
    have hc : c ≠ 0 := hs c (List.mem_cons_self _ _)
    have hs' : ∀ x ∈ s, x ≠ 0 := fun x hx => hs x (List.mem_cons_of_mem _ hx)
    simp only [LCD_Print, hc, if_false, List.foldl_cons]
    rw [ih _ hs']
    rfl

theorem bar_cells (filled : Nat) : ∀ width, filled ≤ width →
    (List.range width).map (fun i => if i < filled then 0x3D else 0x20) =
      List.replicate filled 0x3D ++ List.replicate (width - filled) 0x20 := by
  intro width h
  apply List.ext_getElem
  · simp; omega
  · intro i h1 h2
    simp at h1
    by_cases hi : i < filled
    · simp [List.getElem_append_left, hi]
    · rw [List.getElem_append_right (by simp; omega)]
      simp [hi]

set_option maxRecDepth 100000 in
/-- The rendering of a clamped percentage has four characters, none of them zero. -/
theorem format_3d_percent_shape : ∀ p ≤ 100,
    (format_3d_percent p).length = 4 ∧ ∀ c ∈ format_3d_percent p, c ≠ 0 := by
  decide

theorem filled_le (p width : Nat) (hp : p ≤ 100) : p * width / 100 ≤ width := by
  apply Nat.div_le_of_le_mul
  exact Nat.mul_le_mul_right width hp

theorem LCD_DrawProgressBar_bar_eq (d : Dev) (row col width p : Nat) (hw : width < 256)
    (hp : p ≤ 100) :
    LCD_DrawProgressBar_bar d row col width p =
      ⟨{ d.hlcd with current_row := min row 3, current_col := (min col 19 + 1 + width) % 256 },
        d.trace ++ sentCommand d.hlcd (0x80 ||| (min col 19 + row_offsets.getD (min row 3) 0)) ++
          sentData d.hlcd 0x5B ++
          (List.replicate (p * width / 100) 0x3D ++
            List.replicate (width - p * width / 100) 0x20).flatMap (sentData d.hlcd)⟩ := by
  have hf := filled_le p width hp
  have hu : u8 (p * width / 100) = p * width / 100 := Nat.mod_eq_of_lt (by omega)
  have h1 : (min col 19 + 1) % 256 = min col 19 + 1 := Nat.mod_eq_of_lt (by omega)
  simp only [LCD_DrawProgressBar_bar, hu]
  rw [← List.foldl_map (fun i => if i < p * width / 100 then 0x3D else 0x20) LCD_PrintChar,
    bar_cells _ _ hf, LCD_SetCursor_eq, LCD_PrintChar_eq, foldl_PrintChar]
  · simp [h1, List.append_assoc]
    omega
  · exact Nat.mod_lt _ (by norm_num)

theorem LCD_PrintAt_eq (d : Dev) (row col : Nat) (s : List Nat) (hs : ∀ c ∈ s, c ≠ 0) :
    LCD_PrintAt d row col s =
      ⟨{ d.hlcd with current_row := min row 3, current_col := (min col 19 + s.length) % 256 },
        d.trace ++ sentCommand d.hlcd (0x80 ||| (min col 19 + row_offsets.getD (min row 3) 0)) ++
          s.flatMap (sentData d.hlcd)⟩ := by
  simp only [LCD_PrintAt]
  rw [LCD_Print_eq_foldl _ _ hs, LCD_SetCursor_eq, foldl_PrintChar]
  · simp
  · show min col 19 < 256
    omega

theorem LCD_DrawProgressBar_eq (d : Dev) (row col width percent : Nat) (hw : width < 256) :
    LCD_DrawProgressBar d row col width percent =
      ⟨{ d.hlcd with
          current_row := min row 3
          current_col := min ((col + width + 3) % 256) 19 + 4 },
        d.trace ++ sentCommand d.hlcd (0x80 ||| (min col 19 + row_offsets.getD (min row 3) 0)) ++
          ([0x5B] ++ List.replicate (min percent 100 * width / 100) 0x3D ++
            List.replicate (width - min percent 100 * width / 100) 0x20 ++
            [0x5D]).flatMap (sentData d.hlcd) ++
          sentCommand d.hlcd
            (0x80 ||| (min ((col + width + 3) % 256) 19 + row_offsets.getD (min row 3) 0)) ++
          (format_3d_percent (min percent 100)).flatMap (sentData d.hlcd)⟩ := by
  have hclamp : (if percent > 100 then 100 else percent) = min percent 100 := by
    split <;> omega
  have hp : min percent 100 ≤ 100 := by omega
  have hsh := format_3d_percent_shape _ hp
  have htake : (format_3d_percent (min percent 100)).take (LCD_COLS + 1 - 1) =
      format_3d_percent (min percent 100) := by
    apply List.take_of_length_le
    rw [hsh.1]; decide
  have hmod : (min ((col + width + 3) % 256) 19 + 4) % 256 =
      min ((col + width + 3) % 256) 19 + 4 := Nat.mod_eq_of_lt (by omega)
  simp only [LCD_DrawProgressBar, hclamp, LCD_Printf, htake, u8]
  rw [LCD_DrawProgressBar_bar_eq _ _ _ _ _ hw hp, LCD_PrintChar_eq, LCD_PrintAt_eq _ _ _ _ hsh.2]
  simp [hsh.1, hmod, List.append_assoc]

/-! ## Progress bar -/

/-- C9: for a width below 256 and any percent, `LCD_DrawProgressBar` works with
`p = min percent 100`; the fill count `p * width / 100` is at most `width` and is stored in
its 8-bit variable unchanged.  After the set-cursor command the data bytes are `[`, then
`filled` times `=`, then `width - filled` spaces, then `]`; then comes the set-cursor command
of the text and the rendering of `p` by the format `%3d%%`. -/
theorem LCD_DrawProgressBar_output (d : Dev) (row col width percent : Nat) (hw : width < 256) :
    min percent 100 * width / 100 ≤ width ∧
    u8 (min percent 100 * width / 100) = min percent 100 * width / 100 ∧
    (LCD_DrawProgressBar d row col width percent).trace =
      d.trace ++
        sentCommand d.hlcd (0x80 ||| (min col 19 + [0x00, 0x40, 0x14, 0x54].getD (min row 3) 0)) ++
        ([0x5B] ++ List.replicate (min percent 100 * width / 100) 0x3D ++
          List.replicate (width - min percent 100 * width / 100) 0x20 ++
          [0x5D]).flatMap (sentData d.hlcd) ++
        sentCommand d.hlcd
          (0x80 ||| (min ((col + width + 3) % 256) 19 +
            [0x00, 0x40, 0x14, 0x54].getD (min row 3) 0)) ++
        (format_3d_percent (min percent 100)).flatMap (sentData d.hlcd) := by
  have hf := filled_le (min percent 100) width (by omega)
  refine ⟨hf, Nat.mod_eq_of_lt (by omega), ?_⟩
  rw [LCD_DrawProgressBar_eq d row col width percent hw]
  rfl

/-- Witness of C9: width 10 at 50 percent gives five `=` and five spaces and the text
` 50%`; at 150 percent it gives ten `=`, no space and the text `100%`. -/
theorem LCD_DrawProgressBar_output_witness :
    10 < 256 ∧
    (LCD_DrawProgressBar sampleDev 0 0 10 50).trace =
      sentCommand sampleDev.hlcd 0x80 ++
        [0x5B, 0x3D, 0x3D, 0x3D, 0x3D, 0x3D, 0x20, 0x20, 0x20, 0x20, 0x20, 0x5D].flatMap
          (sentData sampleDev.hlcd) ++
        sentCommand sampleDev.hlcd 0x8D ++
        [0x20, 0x35, 0x30, 0x25].flatMap (sentData sampleDev.hlcd) ∧
    (LCD_DrawProgressBar sampleDev 0 0 10 150).trace =
      sentCommand sampleDev.hlcd 0x80 ++
        [0x5B, 0x3D, 0x3D, 0x3D, 0x3D, 0x3D, 0x3D, 0x3D, 0x3D, 0x3D, 0x3D, 0x5D].flatMap
          (sentData sampleDev.hlcd) ++
        sentCommand sampleDev.hlcd 0x8D ++
        [0x31, 0x30, 0x30, 0x25].flatMap (sentData sampleDev.hlcd) :=
  ⟨by decide,
    (LCD_DrawProgressBar_output sampleDev 0 0 10 50 (by decide)).2.2,
    (LCD_DrawProgressBar_output sampleDev 0 0 10 150 (by decide)).2.2⟩

/-- C10 (as the code has it): when the bar and its text fit on the row
(`col + width + 6 ≤ 19`), the closing bracket is written at column `col + width + 1`, and
the text is printed by a set-cursor to the column 2 greater than that, `col + width + 3`,
followed by the rendering of the clamped percentage; that set-cursor is not clamped. -/
theorem LCD_DrawProgressBar_text_column (d : Dev) (row col width percent : Nat)
    (hfit : col + width + 6 ≤ 19) :
    (LCD_DrawProgressBar_bar d row col width (min percent 100)).hlcd.current_col =
      col + width + 1 ∧
    LCD_DrawProgressBar d row col width percent =
      LCD_Print
        (LCD_SetCursor (LCD_PrintChar (LCD_DrawProgressBar_bar d row col width (min percent 100)) 0x5D)
          row ((LCD_DrawProgressBar_bar d row col width (min percent 100)).hlcd.current_col + 2))
        (format_3d_percent (min percent 100)) ∧
    (LCD_SetCursor (LCD_PrintChar (LCD_DrawProgressBar_bar d row col width (min percent 100)) 0x5D)
        row ((LCD_DrawProgressBar_bar d row col width (min percent 100)).hlcd.current_col + 2)
      ).hlcd.current_col =
      (LCD_DrawProgressBar_bar d row col width (min percent 100)).hlcd.current_col + 2 := by
  have hclamp : (if percent > 100 then 100 else percent) = min percent 100 := by
    split <;> omega
  have hbar := LCD_DrawProgressBar_bar_eq d row col width (min percent 100) (by omega) (by omega)
  have hcol : (LCD_DrawProgressBar_bar d row col width (min percent 100)).hlcd.current_col =
      col + width + 1 := by
    rw [hbar]
    show (min col 19 + 1 + width) % 256 = col + width + 1
    rw [Nat.mod_eq_of_lt (by omega)]; omega
  have harg : u8 (col + width + 3) = col + width + 1 + 2 := Nat.mod_eq_of_lt (by omega)
  have htake : (format_3d_percent (min percent 100)).take (LCD_COLS + 1 - 1) =
      format_3d_percent (min percent 100) := by
    apply List.take_of_length_le
    rw [(format_3d_percent_shape _ (by omega)).1]; decide
  refine ⟨hcol, ?_, ?_⟩
  · rw [hcol]
    simp only [LCD_DrawProgressBar, hclamp, LCD_Printf, htake, harg, LCD_PrintAt]
  · rw [hcol, LCD_SetCursor_eq]
    show min (col + width + 1 + 2) 19 = col + width + 1 + 2
    omega

/-- Witness of C10: a bar of width 10 at column 0 of row 0, at 50 percent. -/
theorem LCD_DrawProgressBar_text_column_witness :
    0 + 10 + 6 ≤ 19 ∧
    (LCD_DrawProgressBar_bar sampleDev 0 0 10 (min 50 100)).hlcd.current_col = 0 + 10 + 1 :=
  ⟨by decide, (LCD_DrawProgressBar_text_column sampleDev 0 0 10 50 (by decide)).1⟩

/-- C10 as stated fails: for a bar of width 10 at column 0 of row 0, at 50 percent, the
closing bracket is written at column 11 and the text is printed at column 13, by
`LCD_SetCursor(h, 0, 13)`; printing it at column 11 + 3 gives a different result. -/
theorem LCD_DrawProgressBar_text_not_three_after :
    (LCD_DrawProgressBar_bar sampleDev 0 0 10 50).hlcd.current_col = 11 ∧
    LCD_DrawProgressBar sampleDev 0 0 10 50 =
      LCD_Print (LCD_SetCursor (LCD_PrintChar (LCD_DrawProgressBar_bar sampleDev 0 0 10 50) 0x5D) 0 13)
        (format_3d_percent 50) ∧
    LCD_DrawProgressBar sampleDev 0 0 10 50 ≠
      LCD_Print
        (LCD_SetCursor (LCD_PrintChar (LCD_DrawProgressBar_bar sampleDev 0 0 10 50) 0x5D) 0 (11 + 3))
        (format_3d_percent 50) := by
  have hbar := LCD_DrawProgressBar_bar_eq sampleDev 0 0 10 50 (by decide) (by decide)
  have hs := (format_3d_percent_shape 50 (by decide)).2
  refine ⟨?_, rfl, ?_⟩
  · rw [hbar]; rfl
  · intro h
    have h2 := congrArg (fun x => x.hlcd.current_col) h
    rw [LCD_DrawProgressBar_eq sampleDev 0 0 10 50 (by decide),
      LCD_Print_eq_foldl _ _ hs, LCD_SetCursor_eq, foldl_PrintChar] at h2
    · revert h2; decide
    · show min (11 + 3) 19 < 256
      decide

/-! ## Animation engine -/

theorem LCD_UpdateAnimation_not_due (d : Dev) (anim : LCD_Animation) (tick tick2 : Nat)
    (h : isDue anim tick = false) :
    LCD_UpdateAnimation d anim tick tick2 = (d, anim) := by
  have h' : (tick + 4294967296 - anim.last_update % 4294967296) % 4294967296 < anim.speed := by
    simpa [isDue] using h
  simp [LCD_UpdateAnimation, h']

theorem not_lt_of_isDue (anim : LCD_Animation) (tick : Nat) (h : isDue anim tick = true) :
    ¬ (tick + 4294967296 - anim.last_update % 4294967296) % 4294967296 < anim.speed := by
  simpa [isDue] using h

/-- The test of line 262 compares the difference of the clock and `last_update`, reduced
modulo 2^32, with `speed`. -/
theorem isDue_eq_false_iff (anim : LCD_Animation) (tick : Nat) :
    isDue anim tick = false ↔
      ((tick : Int) - (anim.last_update : Int)) % 4294967296 < (anim.speed : Int) := by
  have h : isDue anim tick = false ↔
      (tick + 4294967296 - anim.last_update % 4294967296) % 4294967296 < anim.speed := by
    simp [isDue]
  rw [h]
  omega

theorem isDue_eq_true_iff (anim : LCD_Animation) (tick : Nat) :
    isDue anim tick = true ↔
      ¬ ((tick : Int) - (anim.last_update : Int)) % 4294967296 < (anim.speed : Int) := by
  rw [← isDue_eq_false_iff]
  cases isDue anim tick <;> simp

/-- A processed call stores the second clock reading. -/
theorem LCD_UpdateAnimation_last_update (d : Dev) (anim : LCD_Animation) (tick tick2 : Nat)
    (h : isDue anim tick = true) :
    (LCD_UpdateAnimation d anim tick tick2).2.last_update = tick2 := by
  have h' := not_lt_of_isDue anim tick h
  simp only [LCD_UpdateAnimation, h', if_false]
  cases anim.type <;> simp
  split_ifs <;> rfl

/-- C11: with `elapsed = (now - last_update) mod 2^32`, a call of `LCD_UpdateAnimation`
at clock value `now` with `elapsed < speed` returns the display state (handle and bus
trace) and the animation state unchanged, so nothing is transmitted and position and
direction keep their values; a call with `elapsed ≥ speed` leaves `last_update` equal to
the clock value read for the assignment of line 264, which is `now` when the clock shows
`now` at both readings. -/
theorem LCD_UpdateAnimation_gate (d : Dev) (anim : LCD_Animation) (now tick2 : Nat) :
    (((now : Int) - (anim.last_update : Int)) % 4294967296 < (anim.speed : Int) →
      LCD_UpdateAnimation d anim now tick2 = (d, anim)) ∧
    (¬ ((now : Int) - (anim.last_update : Int)) % 4294967296 < (anim.speed : Int) →
      (LCD_UpdateAnimation d anim now tick2).2.last_update = tick2) ∧
    (¬ ((now : Int) - (anim.last_update : Int)) % 4294967296 < (anim.speed : Int) →
      (LCD_UpdateAnimation d anim now now).2.last_update = now) := by
  refine ⟨fun h => ?_, fun h => ?_, fun h => ?_⟩
  · exact LCD_UpdateAnimation_not_due d anim now tick2 ((isDue_eq_false_iff anim now).2 h)
  · exact LCD_UpdateAnimation_last_update d anim now tick2 ((isDue_eq_true_iff anim now).2 h)
  · exact LCD_UpdateAnimation_last_update d anim now now ((isDue_eq_true_iff anim now).2 h)

/-- Witness of C11: a spinner with interval 100 initialised at clock value 4294967290 is
not due at clock value 5 (11 ticks later, across the wrap of the counter). -/
theorem LCD_UpdateAnimation_gate_witness :
    ((5 : Int) - ((LCD_InitAnimation LCD_AnimationType.ANIM_SPINNER 1 2 100 4294967290).last_update
        : Int)) % 4294967296 <
      ((LCD_InitAnimation LCD_AnimationType.ANIM_SPINNER 1 2 100 4294967290).speed : Int) ∧
    LCD_UpdateAnimation sampleDev
        (LCD_InitAnimation LCD_AnimationType.ANIM_SPINNER 1 2 100 4294967290) 5 5 =
      (sampleDev, LCD_InitAnimation LCD_AnimationType.ANIM_SPINNER 1 2 100 4294967290) :=
  ⟨by decide,
    (LCD_UpdateAnimation_gate sampleDev
      (LCD_InitAnimation LCD_AnimationType.ANIM_SPINNER 1 2 100 4294967290) 5 5).1 (by decide)⟩

/-- C17: a due call of `LCD_UpdateAnimation` on an animation of type `ANIM_PROGRESS` or
`ANIM_NONE` returns the display state unchanged (same handle, nothing transmitted) and
the animation unchanged except for `last_update`, which becomes the clock value read. -/
theorem LCD_UpdateAnimation_unhandled (d : Dev) (anim : LCD_Animation) (tick tick2 : Nat)
    (ht : anim.type = LCD_AnimationType.ANIM_PROGRESS ∨ anim.type = LCD_AnimationType.ANIM_NONE)
    (hdue : ¬ ((tick : Int) - (anim.last_update : Int)) % 4294967296 < (anim.speed : Int)) :
    LCD_UpdateAnimation d anim tick tick2 = (d, { anim with last_update := tick2 }) ∧
    (LCD_UpdateAnimation d anim tick tick2).1.trace = d.trace ∧
    (LCD_UpdateAnimation d anim tick tick2).1.hlcd = d.hlcd ∧
    (LCD_UpdateAnimation d anim tick tick2).2.type = anim.type ∧
    (LCD_UpdateAnimation d anim tick tick2).2.row = anim.row ∧
    (LCD_UpdateAnimation d anim tick tick2).2.col = anim.col ∧
    (LCD_UpdateAnimation d anim tick tick2).2.position = anim.position ∧
    (LCD_UpdateAnimation d anim tick tick2).2.direction = anim.direction ∧
    (LCD_UpdateAnimation d anim tick tick2).2.speed = anim.speed ∧
    (LCD_UpdateAnimation d anim tick tick2).2.last_update = tick2 := by
  have h' := not_lt_of_isDue anim tick ((isDue_eq_true_iff anim tick).2 hdue)
  have key : LCD_UpdateAnimation d anim tick tick2 = (d, { anim with last_update := tick2 }) := by
    rcases ht with ht | ht <;> simp [LCD_UpdateAnimation, h', ht]
  rw [key]
  exact ⟨rfl, rfl, rfl, rfl, rfl, rfl, rfl, rfl, rfl, rfl⟩

/-- Witness of C17: a progress animation with interval 100, initialised at clock value 0
and ticked at clock value 1000. -/
theorem LCD_UpdateAnimation_unhandled_witness :
    ((LCD_InitAnimation LCD_AnimationType.ANIM_PROGRESS 1 2 100 0).type =
        LCD_AnimationType.ANIM_PROGRESS ∨
      (LCD_InitAnimation LCD_AnimationType.ANIM_PROGRESS 1 2 100 0).type =
        LCD_AnimationType.ANIM_NONE) ∧
    LCD_UpdateAnimation sampleDev (LCD_InitAnimation LCD_AnimationType.ANIM_PROGRESS 1 2 100 0)
        1000 1000 =
      (sampleDev, LCD_InitAnimation LCD_AnimationType.ANIM_PROGRESS 1 2 100 1000) :=
  ⟨Or.inl rfl,
    (LCD_UpdateAnimation_unhandled sampleDev
      (LCD_InitAnimation LCD_AnimationType.ANIM_PROGRESS 1 2 100 0) 1000 1000 (Or.inl rfl)
      (by decide)).1⟩

/-- One processed call on a bouncing arrow in phase `j` of its cycle of six. -/
theorem bounce_step (d : Dev) (anim : LCD_Animation) (tick tick2 j : Nat) (hj : j < 6)
    (ht : anim.type = LCD_AnimationType.ANIM_ARROW_BOUNCE)
    (hp : anim.position = [0, 1, 2, 3, 2, 1].getD j 0)
    (hd : anim.direction = [1, 1, 1, 0, 0, 0].getD j 0)
    (h : isDue anim tick = true) :
    LCD_UpdateAnimation d anim tick tick2 =
      (LCD_DrawArrow d anim.row (u8 (anim.col + [0, 1, 2, 3, 2, 1].getD j 0)) (decide (3 ≤ j)),
        { anim with
          last_update := tick2
          position := [0, 1, 2, 3, 2, 1].getD ((j + 1) % 6) 0
          direction := [1, 1, 1, 0, 0, 0].getD ((j + 1) % 6) 0 }) := by
  have h' := not_lt_of_isDue anim tick h
  interval_cases j <;> simp [LCD_UpdateAnimation, h', ht, hp, hd] at *

/-- The phase of a bouncing arrow after a run of calls: it advances by one for every
processed call and by nothing for a call that is not due. -/
theorem bounce_run (ticks : List (Nat × Nat)) :
    ∀ (s : Dev × LCD_Animation) (j : Nat), j < 6 →
      s.2.type = LCD_AnimationType.ANIM_ARROW_BOUNCE →
      s.2.position = [0, 1, 2, 3, 2, 1].getD j 0 →
      s.2.direction = [1, 1, 1, 0, 0, 0].getD j 0 →
      (updateAnimation_calls s ticks).2.type = LCD_AnimationType.ANIM_ARROW_BOUNCE ∧
      (updateAnimation_calls s ticks).2.row = s.2.row ∧
      (updateAnimation_calls s ticks).2.col = s.2.col ∧
      (updateAnimation_calls s ticks).2.position =
        [0, 1, 2, 3, 2, 1].getD ((j + processed_calls s ticks) % 6) 0 ∧
      (updateAnimation_calls s ticks).2.direction =
        [1, 1, 1, 0, 0, 0].getD ((j + processed_calls s ticks) % 6) 0 := by
  induction ticks with
  | nil =>
    intro s j hj ht hp hd
    have hj' : (j + 0) % 6 = j := by omega
    show _ ∧ _ ∧ _ ∧ s.2.position = [0, 1, 2, 3, 2, 1].getD ((j + 0) % 6) 0 ∧
      s.2.direction = [1, 1, 1, 0, 0, 0].getD ((j + 0) % 6) 0
    rw [hj']
    exact ⟨ht, rfl, rfl, hp, hd⟩
  | cons t ts ih =>
    intro s j hj ht hp hd
    simp only [updateAnimation_calls, processed_calls]
    cases hdue : isDue s.2 t.1
    · rw [LCD_UpdateAnimation_not_due _ _ _ _ hdue]
      have := ih (s.1, s.2) j hj ht hp hd
      simpa using this
    · have hstep := bounce_step s.1 s.2 t.1 t.2 j hj ht hp hd hdue
      have := ih (LCD_UpdateAnimation s.1 s.2 t.1 t.2) ((j + 1) % 6) (Nat.mod_lt _ (by norm_num))
        (by rw [hstep]; exact ht) (by rw [hstep]) (by rw [hstep])
      have hmod : ∀ n, ((j + 1) % 6 + n) % 6 = (j + (1 + n)) % 6 := by intro n; omega
      rw [hmod] at this
      refine ⟨this.1, ?_, ?_, ?_, ?_⟩
      · rw [this.2.1, hstep]
      · rw [this.2.2.1, hstep]
      · simpa using this.2.2.2.1
      · simpa using this.2.2.2.2

theorem LCD_DrawArrow_eq (d : Dev) (row col : Nat) (left : Bool) :
    LCD_DrawArrow d row col left =
      ⟨{ d.hlcd with current_row := min row 3, current_col := min col 19 + 1 },
        d.trace ++ sentCommand d.hlcd (0x80 ||| (min col 19 + row_offsets.getD (min row 3) 0)) ++
          sentData d.hlcd (if left then 1 else 0)⟩ := by
  have h1 : (min col 19 + 1) % 256 = min col 19 + 1 := Nat.mod_eq_of_lt (by omega)
  cases left <;>
    simp [LCD_DrawArrow, LCD_SetCursor_eq, LCD_PrintCustomChar_eq, h1, CHAR_ARROW_LEFT,
      CHAR_ARROW_RIGHT]

/-- C12 (as the code has it): start from `LCD_InitAnimation` with `ANIM_ARROW_BOUNCE` and
make any sequence of calls of `LCD_UpdateAnimation`, `k` of which were due.  Then the
position is the entry `k mod 6` of 0, 1, 2, 3, 2, 1, so it lies in [0, 3]; the next call,
when due, draws the arrow with that entry as offset and moves the position to the next
entry, which differs from it by exactly one; when not due it changes nothing.  Drawing
appends a set-cursor command to row `min row 3`, column `min ((col + offset) mod 256) 19`,
and the data byte of the arrow glyph (0 right, 1 left in the second half of the cycle).
When `col + 3 ≤ 19` that column is `col + offset`, and the columns and the commands of two
successive processed ticks differ. -/
theorem bounce_cycle (d : Dev) (row col speed tick0 : Nat) (ticks : List (Nat × Nat))
    (tick tick2 : Nat) :
    (updateAnimation_calls
        (d, LCD_InitAnimation LCD_AnimationType.ANIM_ARROW_BOUNCE row col speed tick0) ticks
      ).2.position =
      [0, 1, 2, 3, 2, 1].getD
        (processed_calls
          (d, LCD_InitAnimation LCD_AnimationType.ANIM_ARROW_BOUNCE row col speed tick0) ticks
          % 6) 0 ∧
    (updateAnimation_calls
        (d, LCD_InitAnimation LCD_AnimationType.ANIM_ARROW_BOUNCE row col speed tick0) ticks
      ).2.position ≤ 3 ∧
    LCD_UpdateAnimation
        (updateAnimation_calls
          (d, LCD_InitAnimation LCD_AnimationType.ANIM_ARROW_BOUNCE row col speed tick0) ticks).1
        (updateAnimation_calls
          (d, LCD_InitAnimation LCD_AnimationType.ANIM_ARROW_BOUNCE row col speed tick0) ticks).2
        tick tick2 =
      (if isDue
          (updateAnimation_calls
            (d, LCD_InitAnimation LCD_AnimationType.ANIM_ARROW_BOUNCE row col speed tick0)
            ticks).2 tick
       then
        (LCD_DrawArrow
          (updateAnimation_calls
            (d, LCD_InitAnimation LCD_AnimationType.ANIM_ARROW_BOUNCE row col speed tick0)
            ticks).1
          row
          (u8 (col + [0, 1, 2, 3, 2, 1].getD
            (processed_calls
              (d, LCD_InitAnimation LCD_AnimationType.ANIM_ARROW_BOUNCE row col speed tick0)
              ticks % 6) 0))
          (decide (3 ≤ processed_calls
            (d, LCD_InitAnimation LCD_AnimationType.ANIM_ARROW_BOUNCE row col speed tick0)
            ticks % 6)),
         { (updateAnimation_calls
            (d, LCD_InitAnimation LCD_AnimationType.ANIM_ARROW_BOUNCE row col speed tick0)
            ticks).2 with
            last_update := tick2
            position := [0, 1, 2, 3, 2, 1].getD
              ((processed_calls
                (d, LCD_InitAnimation LCD_AnimationType.ANIM_ARROW_BOUNCE row col speed tick0)
                ticks + 1) % 6) 0
            direction := [1, 1, 1, 0, 0, 0].getD
              ((processed_calls
                (d, LCD_InitAnimation LCD_AnimationType.ANIM_ARROW_BOUNCE row col speed tick0)
                ticks + 1) % 6) 0 })
       else
        updateAnimation_calls
          (d, LCD_InitAnimation LCD_AnimationType.ANIM_ARROW_BOUNCE row col speed tick0)
          ticks) ∧
    ([0, 1, 2, 3, 2, 1].getD
        ((processed_calls
          (d, LCD_InitAnimation LCD_AnimationType.ANIM_ARROW_BOUNCE row col speed tick0)
          ticks + 1) % 6) 0 =
      [0, 1, 2, 3, 2, 1].getD
        (processed_calls
          (d, LCD_InitAnimation LCD_AnimationType.ANIM_ARROW_BOUNCE row col speed tick0)
          ticks % 6) 0 + 1 ∨
     [0, 1, 2, 3, 2, 1].getD
        ((processed_calls
          (d, LCD_InitAnimation LCD_AnimationType.ANIM_ARROW_BOUNCE row col speed tick0)
          ticks + 1) % 6) 0 + 1 =
      [0, 1, 2, 3, 2, 1].getD
        (processed_calls
          (d, LCD_InitAnimation LCD_AnimationType.ANIM_ARROW_BOUNCE row col speed tick0)
          ticks % 6) 0) ∧
    (LCD_UpdateAnimation
        (updateAnimation_calls
          (d, LCD_InitAnimation LCD_AnimationType.ANIM_ARROW_BOUNCE row col speed tick0) ticks).1
        (updateAnimation_calls
          (d, LCD_InitAnimation LCD_AnimationType.ANIM_ARROW_BOUNCE row col speed tick0) ticks).2
        tick tick2).1.trace =
      (updateAnimation_calls
        (d, LCD_InitAnimation LCD_AnimationType.ANIM_ARROW_BOUNCE row col speed tick0)
        ticks).1.trace ++
      (if isDue
          (updateAnimation_calls
            (d, LCD_InitAnimation LCD_AnimationType.ANIM_ARROW_BOUNCE row col speed tick0)
            ticks).2 tick
       then
        sentCommand
          (updateAnimation_calls
            (d, LCD_InitAnimation LCD_AnimationType.ANIM_ARROW_BOUNCE row col speed tick0)
            ticks).1.hlcd
          (0x80 |||
            (min
              ((col + [0, 1, 2, 3, 2, 1].getD
                (processed_calls
                  (d, LCD_InitAnimation LCD_AnimationType.ANIM_ARROW_BOUNCE row col speed tick0)
                  ticks % 6) 0) % 256)
              19 +
            [0x00, 0x40, 0x14, 0x54].getD (min row 3) 0)) ++
        sentData
          (updateAnimation_calls
            (d, LCD_InitAnimation LCD_AnimationType.ANIM_ARROW_BOUNCE row col speed tick0)
            ticks).1.hlcd
          (if 3 ≤ processed_calls
              (d, LCD_InitAnimation LCD_AnimationType.ANIM_ARROW_BOUNCE row col speed tick0)
              ticks % 6
           then 1 else 0)
       else []) ∧
    (col + 3 ≤ 19 →
      min
        ((col + [0, 1, 2, 3, 2, 1].getD
          (processed_calls
            (d, LCD_InitAnimation LCD_AnimationType.ANIM_ARROW_BOUNCE row col speed tick0)
            ticks % 6) 0) % 256)
        19 =
        col + [0, 1, 2, 3, 2, 1].getD
          (processed_calls
            (d, LCD_InitAnimation LCD_AnimationType.ANIM_ARROW_BOUNCE row col speed tick0)
            ticks % 6) 0 ∧
      min
        ((col + [0, 1, 2, 3, 2, 1].getD
          ((processed_calls
            (d, LCD_InitAnimation LCD_AnimationType.ANIM_ARROW_BOUNCE row col speed tick0)
            ticks + 1) % 6) 0) % 256)
        19 ≠
      min
        ((col + [0, 1, 2, 3, 2, 1].getD
          (processed_calls
            (d, LCD_InitAnimation LCD_AnimationType.ANIM_ARROW_BOUNCE row col speed tick0)
            ticks % 6) 0) % 256)
        19 ∧
      0x80 |||
        (min
          ((col + [0, 1, 2, 3, 2, 1].getD
            ((processed_calls
              (d, LCD_InitAnimation LCD_AnimationType.ANIM_ARROW_BOUNCE row col speed tick0)
              ticks + 1) % 6) 0) % 256)
          19 +
        [0x00, 0x40, 0x14, 0x54].getD (min row 3) 0) ≠
      0x80 |||
        (min
          ((col + [0, 1, 2, 3, 2, 1].getD
            (processed_calls
              (d, LCD_InitAnimation LCD_AnimationType.ANIM_ARROW_BOUNCE row col speed tick0)
              ticks % 6) 0) % 256)
          19 +
        [0x00, 0x40, 0x14, 0x54].getD (min row 3) 0)) := by
  generalize hs0 :
    (d, LCD_InitAnimation LCD_AnimationType.ANIM_ARROW_BOUNCE row col speed tick0) = s0
  have hrun := bounce_run ticks s0 0 (by norm_num) (by rw [← hs0]; rfl) (by rw [← hs0]; rfl)
    (by rw [← hs0]; rfl)
  rw [Nat.zero_add] at hrun
  generalize processed_calls s0 ticks = k at hrun ⊢
  generalize updateAnimation_calls s0 ticks = s at hrun ⊢
  have hk : k % 6 < 6 := Nat.mod_lt _ (by norm_num)
  have hrow : s.2.row = row := by rw [hrun.2.1, ← hs0]; rfl
  have hcol : s.2.col = col := by rw [hrun.2.2.1, ← hs0]; rfl
  have hoff : ∀ j < 6, [0, 1, 2, 3, 2, 1].getD j 0 ≤ 3 ∧
      ([0, 1, 2, 3, 2, 1].getD ((j + 1) % 6) 0 = [0, 1, 2, 3, 2, 1].getD j 0 + 1 ∨
       [0, 1, 2, 3, 2, 1].getD ((j + 1) % 6) 0 + 1 = [0, 1, 2, 3, 2, 1].getD j 0) := by
    decide
  have hsucc : (k + 1) % 6 = (k % 6 + 1) % 6 := by omega
  have hk1 : (k % 6 + 1) % 6 < 6 := Nat.mod_lt _ (by norm_num)
  refine ⟨hrun.2.2.2.1, ?_, ?_, ?_, ?_, ?_⟩
  · rw [hrun.2.2.2.1]; exact (hoff _ hk).1
  · cases hdue : isDue s.2 tick
    · rw [LCD_UpdateAnimation_not_due _ _ _ _ hdue]; rfl
    · rw [bounce_step s.1 s.2 tick tick2 (k % 6) hk hrun.1 hrun.2.2.2.1 hrun.2.2.2.2 hdue,
        hsucc]
      simp [hrow, hcol]
  · rw [hsucc]; exact (hoff _ hk).2
  · cases hdue : isDue s.2 tick
    · rw [LCD_UpdateAnimation_not_due _ _ _ _ hdue]; simp
    · rw [bounce_step s.1 s.2 tick tick2 (k % 6) hk hrun.1 hrun.2.2.2.1 hrun.2.2.2.2 hdue,
        LCD_DrawArrow_eq, hrow, hcol]
      simp [u8, List.append_assoc, row_offsets]
  · intro hfit
    rw [hsucc]
    have h0 := (hoff _ hk).1
    have h1 := (hoff _ hk1).1
    have hstep := (hoff _ hk).2
    have e0 : min ((col + [0, 1, 2, 3, 2, 1].getD (k % 6) 0) % 256) 19 =
        col + [0, 1, 2, 3, 2, 1].getD (k % 6) 0 := by
      rw [Nat.mod_eq_of_lt (by omega)]; omega
    have e1 : min ((col + [0, 1, 2, 3, 2, 1].getD ((k % 6 + 1) % 6) 0) % 256) 19 =
        col + [0, 1, 2, 3, 2, 1].getD ((k % 6 + 1) % 6) 0 := by
      rw [Nat.mod_eq_of_lt (by omega)]; omega
    have hne : col + [0, 1, 2, 3, 2, 1].getD ((k % 6 + 1) % 6) 0 ≠
        col + [0, 1, 2, 3, 2, 1].getD (k % 6) 0 := by
      rcases hstep with h | h <;> omega
    refine ⟨e0, ?_, ?_⟩
    · rw [e0, e1]; exact hne
    · rw [e0, e1]
      intro hc
      have hr3 : min row 3 ≤ 3 := by omega
      have c0 := ddram_cells (min row 3) (by omega)
        (col + [0, 1, 2, 3, 2, 1].getD (k % 6) 0) (by omega)
      have c1 := ddram_cells (min row 3) (by omega)
        (col + [0, 1, 2, 3, 2, 1].getD ((k % 6 + 1) % 6) 0) (by omega)
      have hadd : col + [0, 1, 2, 3, 2, 1].getD ((k % 6 + 1) % 6) 0 +
          row_offsets.getD (min row 3) 0 =
          col + [0, 1, 2, 3, 2, 1].getD (k % 6) 0 + row_offsets.getD (min row 3) 0 := by
        rw [← c0.2.2.1, ← c1.2.2.1]
        exact congrArg (fun x => x &&& 0x7F) hc
      exact hne (by omega)

/-- C12 as stated fails for an anchor near the right edge: with the anchor at column 17 the
third, fourth and fifth processed ticks (positions 2, 3, 2) all set the cursor to column
19 (command 0x93), so the arrow is drawn on one cell on consecutive ticks, at offset 2
from the anchor and never at offset 3. -/
theorem bounce_clamped_at_right_edge :
    (updateAnimation_calls
      (sampleDev, LCD_InitAnimation LCD_AnimationType.ANIM_ARROW_BOUNCE 0 17 100 0)
      [(100, 100), (200, 200)]).2.position = 2 ∧
    (updateAnimation_calls
      (sampleDev, LCD_InitAnimation LCD_AnimationType.ANIM_ARROW_BOUNCE 0 17 100 0)
      [(100, 100), (200, 200), (300, 300)]).2.position = 3 ∧
    (updateAnimation_calls
      (sampleDev, LCD_InitAnimation LCD_AnimationType.ANIM_ARROW_BOUNCE 0 17 100 0)
      [(100, 100), (200, 200), (300, 300)]).1.trace =
      (updateAnimation_calls
        (sampleDev, LCD_InitAnimation LCD_AnimationType.ANIM_ARROW_BOUNCE 0 17 100 0)
        [(100, 100), (200, 200)]).1.trace ++
      sentCommand sampleDev.hlcd 0x93 ++ sentData sampleDev.hlcd 0 ∧
    (updateAnimation_calls
      (sampleDev, LCD_InitAnimation LCD_AnimationType.ANIM_ARROW_BOUNCE 0 17 100 0)
      [(100, 100), (200, 200), (300, 300), (400, 400)]).1.trace =
      (updateAnimation_calls
        (sampleDev, LCD_InitAnimation LCD_AnimationType.ANIM_ARROW_BOUNCE 0 17 100 0)
        [(100, 100), (200, 200), (300, 300)]).1.trace ++
      sentCommand sampleDev.hlcd 0x93 ++ sentData sampleDev.hlcd 1 ∧
    (updateAnimation_calls
      (sampleDev, LCD_InitAnimation LCD_AnimationType.ANIM_ARROW_BOUNCE 0 17 100 0)
      [(100, 100), (200, 200), (300, 300), (400, 400), (500, 500)]).1.trace =
      (updateAnimation_calls
        (sampleDev, LCD_InitAnimation LCD_AnimationType.ANIM_ARROW_BOUNCE 0 17 100 0)
        [(100, 100), (200, 200), (300, 300), (400, 400)]).1.trace ++
      sentCommand sampleDev.hlcd 0x93 ++ sentData sampleDev.hlcd 1 ∧
    (0x93 : Nat) = 0x80 ||| (19 + [0x00, 0x40, 0x14, 0x54].getD 0 0) ∧
    (0x93 : Nat) ≠ 0x80 ||| (17 + 3 + [0x00, 0x40, 0x14, 0x54].getD 0 0) := by
  decide

/-- Witness of C12: anchor (1, 5), interval 100; of the three calls at clock values 100,
150 and 200 the second is not due, so two were processed; the next due call draws the
right arrow at column 7 (command 0xC7). -/
theorem bounce_cycle_witness :
    5 + 3 ≤ 19 ∧
    (LCD_UpdateAnimation
        (updateAnimation_calls
          (sampleDev, LCD_InitAnimation LCD_AnimationType.ANIM_ARROW_BOUNCE 1 5 100 0)
          [(100, 100), (150, 150), (200, 200)]).1
        (updateAnimation_calls
          (sampleDev, LCD_InitAnimation LCD_AnimationType.ANIM_ARROW_BOUNCE 1 5 100 0)
          [(100, 100), (150, 150), (200, 200)]).2
        300 300).1.trace =
      (updateAnimation_calls
        (sampleDev, LCD_InitAnimation LCD_AnimationType.ANIM_ARROW_BOUNCE 1 5 100 0)
        [(100, 100), (150, 150), (200, 200)]).1.trace ++
      (sentCommand sampleDev.hlcd 0xC7 ++ sentData sampleDev.hlcd 0) ∧
    min ((5 + 2) % 256) 19 = 5 + 2 :=
  ⟨by decide,
    (bounce_cycle sampleDev 1 5 100 0 [(100, 100), (150, 150), (200, 200)] 300 300).2.2.2.2.1,
    ((bounce_cycle sampleDev 1 5 100 0 [(100, 100), (150, 150), (200, 200)] 300 300
      ).2.2.2.2.2 (by decide)).1⟩

/-- One processed call on a spinner at position `p`. -/
theorem spinner_step (d : Dev) (anim : LCD_Animation) (tick tick2 p : Nat)
    (ht : anim.type = LCD_AnimationType.ANIM_SPINNER) (hp : anim.position = p)
    (h : isDue anim tick = true) :
    LCD_UpdateAnimation d anim tick tick2 =
      (LCD_DrawSpinner d anim.row anim.col p,
        { anim with last_update := tick2, position := (p + 1) % 4 }) := by
  have h' := not_lt_of_isDue anim tick h
  have hu : u8 ((p + 1) % 4) = (p + 1) % 4 := Nat.mod_eq_of_lt (by omega)
  simp [LCD_UpdateAnimation, h', ht, hp, hu]

theorem spinner_run (ticks : List (Nat × Nat)) :
    ∀ (s : Dev × LCD_Animation) (p : Nat), p < 4 →
      s.2.type = LCD_AnimationType.ANIM_SPINNER → s.2.position = p →
      (updateAnimation_calls s ticks).2.type = LCD_AnimationType.ANIM_SPINNER ∧
      (updateAnimation_calls s ticks).2.row = s.2.row ∧
      (updateAnimation_calls s ticks).2.col = s.2.col ∧
      (updateAnimation_calls s ticks).2.position = (p + processed_calls s ticks) % 4 := by
  induction ticks with
  | nil =>
    intro s p hp4 ht hp
    have hp' : (p + 0) % 4 = p := by omega
    show _ ∧ _ ∧ _ ∧ s.2.position = (p + 0) % 4
    rw [hp']
    exact ⟨ht, rfl, rfl, hp⟩
  | cons t ts ih =>
    intro s p hp4 ht hp
    simp only [updateAnimation_calls, processed_calls]
    cases hdue : isDue s.2 t.1
    · rw [LCD_UpdateAnimation_not_due _ _ _ _ hdue]
      have := ih (s.1, s.2) p hp4 ht hp
      simpa using this
    · have hstep := spinner_step s.1 s.2 t.1 t.2 p ht hp hdue
      have := ih (LCD_UpdateAnimation s.1 s.2 t.1 t.2) ((p + 1) % 4) (Nat.mod_lt _ (by norm_num))
        (by rw [hstep]; exact ht) (by rw [hstep])
      have hmod : ∀ n, ((p + 1) % 4 + n) % 4 = (p + (1 + n)) % 4 := by intro n; omega
      rw [hmod] at this
      refine ⟨this.1, ?_, ?_, ?_⟩
      · rw [this.2.1, hstep]
      · rw [this.2.2.1, hstep]
      · simpa using this.2.2.2

theorem LCD_DrawSpinner_eq (d : Dev) (row col state : Nat) :
    LCD_DrawSpinner d row col state =
      ⟨{ d.hlcd with current_row := min row 3, current_col := min col 19 + 1 },
        d.trace ++ sentCommand d.hlcd (0x80 ||| (min col 19 + row_offsets.getD (min row 3) 0)) ++
          sentData d.hlcd (SPINNER_CHARS.getD (state % 4) 0)⟩ := by
  have h1 : (min col 19 + 1) % 256 = min col 19 + 1 := Nat.mod_eq_of_lt (by omega)
  simp [LCD_DrawSpinner, LCD_SetCursor_eq, LCD_PrintChar_eq, h1]

/-- C13: start from `LCD_InitAnimation` with `ANIM_SPINNER` and make any sequence of calls
of `LCD_UpdateAnimation`, `k` of which were due.  Then the position is `k mod 4`; the next
call, when due, sets the cursor to the anchor, emits the data byte `SPINNER_CHARS[k mod 4]`
of the characters `|`, `/`, `-`, backslash, and leaves the position `(k + 1) mod 4`; when
not due it changes nothing, so skipped calls do not advance the cycle. -/
theorem spinner_cycle (d : Dev) (row col speed tick0 : Nat) (ticks : List (Nat × Nat))
    (tick tick2 : Nat) :
    (updateAnimation_calls
        (d, LCD_InitAnimation LCD_AnimationType.ANIM_SPINNER row col speed tick0) ticks
      ).2.position =
      processed_calls
        (d, LCD_InitAnimation LCD_AnimationType.ANIM_SPINNER row col speed tick0) ticks % 4 ∧
    LCD_UpdateAnimation
        (updateAnimation_calls
          (d, LCD_InitAnimation LCD_AnimationType.ANIM_SPINNER row col speed tick0) ticks).1
        (updateAnimation_calls
          (d, LCD_InitAnimation LCD_AnimationType.ANIM_SPINNER row col speed tick0) ticks).2
        tick tick2 =
      (if isDue
          (updateAnimation_calls
            (d, LCD_InitAnimation LCD_AnimationType.ANIM_SPINNER row col speed tick0) ticks).2
          tick
       then
        (LCD_DrawSpinner
          (updateAnimation_calls
            (d, LCD_InitAnimation LCD_AnimationType.ANIM_SPINNER row col speed tick0) ticks).1
          row col
          (processed_calls
            (d, LCD_InitAnimation LCD_AnimationType.ANIM_SPINNER row col speed tick0) ticks % 4),
         { (updateAnimation_calls
            (d, LCD_InitAnimation LCD_AnimationType.ANIM_SPINNER row col speed tick0) ticks).2 with
            last_update := tick2
            position :=
              (processed_calls
                (d, LCD_InitAnimation LCD_AnimationType.ANIM_SPINNER row col speed tick0) ticks
                + 1) % 4 })
       else
        updateAnimation_calls
          (d, LCD_InitAnimation LCD_AnimationType.ANIM_SPINNER row col speed tick0) ticks) ∧
    (LCD_DrawSpinner
        (updateAnimation_calls
          (d, LCD_InitAnimation LCD_AnimationType.ANIM_SPINNER row col speed tick0) ticks).1
        row col
        (processed_calls
          (d, LCD_InitAnimation LCD_AnimationType.ANIM_SPINNER row col speed tick0) ticks % 4)
      ).trace =
      (updateAnimation_calls
        (d, LCD_InitAnimation LCD_AnimationType.ANIM_SPINNER row col speed tick0) ticks).1.trace ++
      sentCommand
        (updateAnimation_calls
          (d, LCD_InitAnimation LCD_AnimationType.ANIM_SPINNER row col speed tick0) ticks).1.hlcd
        (0x80 ||| (min col 19 + [0x00, 0x40, 0x14, 0x54].getD (min row 3) 0)) ++
      sentData
        (updateAnimation_calls
          (d, LCD_InitAnimation LCD_AnimationType.ANIM_SPINNER row col speed tick0) ticks).1.hlcd
        ([0x7C, 0x2F, 0x2D, 0x5C].getD
          (processed_calls
            (d, LCD_InitAnimation LCD_AnimationType.ANIM_SPINNER row col speed tick0) ticks % 4)
          0) := by
  generalize hs0 :
    (d, LCD_InitAnimation LCD_AnimationType.ANIM_SPINNER row col speed tick0) = s0
  have hrun := spinner_run ticks s0 0 (by norm_num) (by rw [← hs0]; rfl) (by rw [← hs0]; rfl)
  rw [Nat.zero_add] at hrun
  generalize processed_calls s0 ticks = k at hrun ⊢
  generalize updateAnimation_calls s0 ticks = s at hrun ⊢
  have hrow : s.2.row = row := by rw [hrun.2.1, ← hs0]; rfl
  have hcol : s.2.col = col := by rw [hrun.2.2.1, ← hs0]; rfl
  have hsucc : (k + 1) % 4 = (k % 4 + 1) % 4 := by omega
  refine ⟨hrun.2.2.2, ?_, ?_⟩
  · cases hdue : isDue s.2 tick
    · rw [LCD_UpdateAnimation_not_due _ _ _ _ hdue]; rfl
    · rw [spinner_step s.1 s.2 tick tick2 (k % 4) hrun.1 hrun.2.2.2 hdue, hsucc]
      simp [hrow, hcol]
  · rw [LCD_DrawSpinner_eq, Nat.mod_mod]
    rfl

/-! ## Box, scrolling and printing -/

theorem foldl_const_PrintChar (n c : Nat) (d : Dev) :
    (List.range n).foldl (fun d _ => LCD_PrintChar d c) d =
      (List.replicate n c).foldl LCD_PrintChar d := by
  rw [← List.foldl_map (fun _ => c) LCD_PrintChar]
  simp

theorem LCD_DrawBox_eq (d : Dev) (row col width : Nat) :
    LCD_DrawBox d row col width =
      ⟨{ d.hlcd with current_row := min row 3, current_col := (min col 19 + (width - 2) + 2) % 256 },
        d.trace ++ sentCommand d.hlcd (0x80 ||| (min col 19 + row_offsets.getD (min row 3) 0)) ++
          ([0x5B] ++ List.replicate (width - 2) 0x20 ++ [0x5D]).flatMap (sentData d.hlcd)⟩ := by
  have hn : Int.toNat ((width : Int) - 2) = width - 2 := by omega
  have h1 : (min col 19 + 1) % 256 = min col 19 + 1 := Nat.mod_eq_of_lt (by omega)
  simp only [LCD_DrawBox, hn, foldl_const_PrintChar]
  rw [LCD_SetCursor_eq, LCD_PrintChar_eq, foldl_PrintChar, LCD_PrintChar_eq]
  · simp [h1, List.append_assoc]
    omega
  · exact Nat.mod_lt _ (by norm_num)

/-- C16: `LCD_DrawBox` sets the cursor and then emits `[`, then `width - 2` spaces with the
subtraction cut off at zero, then `]`.  That is `width` characters for a width of 2 or
more; for the widths 0 and 1 the loop body never runs (the bound `width - 2` is a negative
`int`, not 254 or 255) and exactly the two characters `[` and `]` are emitted. -/
theorem LCD_DrawBox_output (d : Dev) (row col width : Nat) :
    (LCD_DrawBox d row col width).trace =
      d.trace ++
        sentCommand d.hlcd (0x80 ||| (min col 19 + [0x00, 0x40, 0x14, 0x54].getD (min row 3) 0)) ++
        ([0x5B] ++ List.replicate (width - 2) 0x20 ++ [0x5D]).flatMap (sentData d.hlcd) ∧
    ([0x5B] ++ List.replicate (width - 2) 0x20 ++ [0x5D]).length = max width 2 ∧
    (LCD_DrawBox d row col 0).trace =
      d.trace ++
        sentCommand d.hlcd (0x80 ||| (min col 19 + [0x00, 0x40, 0x14, 0x54].getD (min row 3) 0)) ++
        [0x5B, 0x5D].flatMap (sentData d.hlcd) ∧
    (LCD_DrawBox d row col 1).trace =
      d.trace ++
        sentCommand d.hlcd (0x80 ||| (min col 19 + [0x00, 0x40, 0x14, 0x54].getD (min row 3) 0)) ++
        [0x5B, 0x5D].flatMap (sentData d.hlcd) := by
  refine ⟨?_, ?_, ?_, ?_⟩
  · rw [LCD_DrawBox_eq]; rfl
  · simp; omega
  · rw [LCD_DrawBox_eq]; rfl
  · rw [LCD_DrawBox_eq]; rfl

theorem strlen_eq_length (s : List Nat) (hs : ∀ c ∈ s, c ≠ 0) : strlen s = s.length := by
  induction s with
  | nil => rfl
  | cons c s ih =>
    have hc : c ≠ 0 := hs c (List.mem_cons_self _ _)
    simp [strlen, hc, ih (fun x hx => hs x (List.mem_cons_of_mem _ hx))]

/-- The 20 characters read by the inner loop of `LCD_ScrollText` at step `i`. -/
theorem scroll_window (text : List Nat) (i : Nat) (h : i + 20 ≤ text.length) :
    (List.range 20).map (fun j => text.getD (i + j) 0) = (text.drop i).take 20 := by
  apply List.ext_getElem
  · simp; omega
  · intro j h1 h2
    simp at h1
    simp [List.getD_eq_getElem?_getD, List.getElem?_eq_getElem (show i + j < text.length by omega)]

/-- One redraw step of `LCD_ScrollText`. -/
theorem scroll_step (d : Dev) (row : Nat) (text : List Nat) (delay_ms i : Nat)
    (h : i + 20 ≤ text.length) :
    HAL_Delay
        ((List.range LCD_COLS).foldl (fun d j => LCD_PrintChar d (text.getD (i + j) 0))
          (LCD_SetCursor d row 0))
        delay_ms =
      ⟨{ d.hlcd with current_row := min row 3, current_col := 20 },
        d.trace ++ (sentCommand d.hlcd (0x80 ||| (0 + row_offsets.getD (min row 3) 0)) ++
          ((text.drop i).take 20).flatMap (sentData d.hlcd) ++ [Event.delay delay_ms])⟩ := by
  have hlen : ((text.drop i).take 20).length = 20 := by simp; omega
  rw [← List.foldl_map (fun j => text.getD (i + j) 0) LCD_PrintChar]
  simp only [LCD_COLS, scroll_window text i h]
  rw [LCD_SetCursor_eq, foldl_PrintChar]
  · simp [HAL_Delay, hlen, List.append_assoc]
  · show min 0 19 < 256
    decide

theorem scroll_steps (row : Nat) (text : List Nat) (delay_ms : Nat) (l : List Nat) :
    ∀ (d : Dev), (∀ i ∈ l, i + 20 ≤ text.length) →
      (l.foldl
        (fun d i =>
          HAL_Delay
            ((List.range LCD_COLS).foldl (fun d j => LCD_PrintChar d (text.getD (i + j) 0))
              (LCD_SetCursor d row 0))
            delay_ms) d).trace =
      d.trace ++ l.flatMap (fun i =>
        sentCommand d.hlcd (0x80 ||| (0 + row_offsets.getD (min row 3) 0)) ++
          ((text.drop i).take 20).flatMap (sentData d.hlcd) ++ [Event.delay delay_ms]) := by
  induction l with
  | nil => intro d _; simp
  | cons i l ih =>
    intro d hl
    rw [List.foldl_cons, scroll_step d row text delay_ms i (hl i (List.mem_cons_self _ _)),
      ih _ (fun x hx => hl x (List.mem_cons_of_mem _ hx))]
    simp [List.append_assoc]

/-- C14: for a text of `L ≤ 255` characters, `LCD_ScrollText` with `L ≤ 20` appends one
set-cursor command to column 0 of the clamped row and the `L` characters as data, and
nothing else (no redraw step, no step delay); with `L > 20` it performs `L - 20 + 1`
steps, step `i` being that set-cursor command, the 20 characters `text[i .. i + 19]` as
data and the delay `delay_ms`. -/
theorem LCD_ScrollText_output (d : Dev) (row : Nat) (text : List Nat) (delay_ms : Nat)
    (hs : ∀ c ∈ text, c ≠ 0) (hL : text.length ≤ 255) :
    (LCD_ScrollText d row text delay_ms).trace =
      d.trace ++
        (if text.length ≤ 20 then
          sentCommand d.hlcd (0x80 ||| (0 + [0x00, 0x40, 0x14, 0x54].getD (min row 3) 0)) ++
            text.flatMap (sentData d.hlcd)
         else
          (List.range (text.length - 20 + 1)).flatMap (fun i =>
            sentCommand d.hlcd (0x80 ||| (0 + [0x00, 0x40, 0x14, 0x54].getD (min row 3) 0)) ++
              ((text.drop i).take 20).flatMap (sentData d.hlcd) ++ [Event.delay delay_ms])) ∧
    (List.range (text.length - 20 + 1)).length = text.length - 20 + 1 := by
  have hlen : u8 (strlen text) = text.length := by
    rw [strlen_eq_length text hs]; exact Nat.mod_eq_of_lt (by omega)
  refine ⟨?_, List.length_range _⟩
  by_cases h20 : text.length ≤ 20
  · simp only [LCD_ScrollText, hlen, LCD_COLS, h20, if_true]
    rw [LCD_PrintAt_eq _ _ _ _ hs]
    show d.trace ++ _ ++ _ = d.trace ++ (_ ++ _)
    rw [List.append_assoc]
    rfl
  · have hn : Int.toNat ((text.length : Int) - ((20 : Nat) : Int)) = text.length - 20 := by omega
    simp only [LCD_ScrollText, hlen, LCD_COLS, h20, if_false]
    have := scroll_steps row text delay_ms (List.range (text.length - 20 + 1)) d
      (fun i hi => by have := List.mem_range.1 hi; omega)
    simp only [LCD_COLS] at this ⊢
    rw [hn, this]
    rfl

/-- Witness of C14: a text of 25 letters `A` is redrawn in 6 steps. -/
theorem LCD_ScrollText_output_witness :
    ((∀ c ∈ List.replicate 25 0x41, c ≠ 0) ∧ (List.replicate 25 0x41).length ≤ 255) ∧
    (LCD_ScrollText sampleDev 1 (List.replicate 25 0x41) 9).trace =
      [0, 1, 2, 3, 4, 5].flatMap (fun _ =>
        sentCommand sampleDev.hlcd 0xC0 ++
          (List.replicate 20 0x41).flatMap (sentData sampleDev.hlcd) ++ [Event.delay 9]) :=
  ⟨⟨by decide, by decide⟩,
    (LCD_ScrollText_output sampleDev 1 (List.replicate 25 0x41) 9 (by decide) (by decide)).1⟩

/-- C15 (as the code has it): for a string `s` of `n` non-zero characters and a handle whose
`current_col` is a byte, `LCD_Print` appends exactly the `n` characters as data bytes, in
order, and changes nothing in the handle but `current_col`, which becomes
`(current_col + n) mod 256`.  Nothing clamps or wraps the column at 19: `LCD_PrintAt`
ends with `current_col = (min c 19 + n) mod 256`, which is `min c 19 + n`, and so
exceeds 19 whenever `min c 19 + n > 19`, as long as `min c 19 + n ≤ 255`. -/
theorem LCD_Print_effect (d : Dev) (s : List Nat) (r c : Nat) (hs : ∀ x ∈ s, x ≠ 0)
    (hcol : d.hlcd.current_col < 256) :
    (LCD_Print d s).trace = d.trace ++ s.flatMap (sentData d.hlcd) ∧
    (LCD_Print d s).hlcd =
      { d.hlcd with current_col := (d.hlcd.current_col + s.length) % 256 } ∧
    (LCD_Print d s).hlcd.current_row = d.hlcd.current_row ∧
    (LCD_PrintAt d r c s).hlcd.current_col = (min c 19 + s.length) % 256 ∧
    (min c 19 + s.length ≤ 255 →
      (LCD_PrintAt d r c s).hlcd.current_col = min c 19 + s.length) := by
  rw [LCD_Print_eq_foldl _ _ hs, foldl_PrintChar _ _ hcol, LCD_PrintAt_eq _ _ _ _ hs]
  refine ⟨rfl, rfl, rfl, rfl, fun h => ?_⟩
  exact Nat.mod_eq_of_lt (by omega)

/-- Witness of C15: the three letters `ABC` printed from column 18 end at column 21. -/
theorem LCD_Print_effect_witness :
    ((∀ x ∈ [0x41, 0x42, 0x43], x ≠ 0) ∧ sampleDev.hlcd.current_col < 256) ∧
    (LCD_PrintAt sampleDev 0 18 [0x41, 0x42, 0x43]).hlcd.current_col = 21 :=
  ⟨⟨by decide, by decide⟩,
    (LCD_Print_effect sampleDev [0x41, 0x42, 0x43] 0 18 (by decide) (by decide)).2.2.2.2
      (by decide)⟩

/-- C15 as stated fails for a long string: 250 letters `A` printed from column 10 leave
`current_col = 4`, not `10 + 250`, and 4 does not exceed 19. -/
theorem LCD_PrintAt_column_wraps :
    (LCD_PrintAt sampleDev 0 10 (List.replicate 250 0x41)).hlcd.current_col = 4 ∧
    (LCD_PrintAt sampleDev 0 10 (List.replicate 250 0x41)).hlcd.current_col ≠
      min 10 19 + (List.replicate 250 0x41).length ∧
    min 10 19 + (List.replicate 250 0x41).length > 19 ∧
    ¬ (LCD_PrintAt sampleDev 0 10 (List.replicate 250 0x41)).hlcd.current_col > 19 := by
  have hs : ∀ x ∈ List.replicate 250 0x41, x ≠ 0 := by
    intro x hx
    rw [List.eq_of_mem_replicate hx]
    decide
  rw [LCD_PrintAt_eq _ _ _ _ hs]
  simp only [List.length_replicate]
  decide

/-! ## Address map and nibble decoding -/

/-- Distinct cells of the screen have distinct DDRAM addresses. -/
theorem ddram_address_injective (r1 c1 r2 c2 : Nat) (hr1 : r1 ≤ 3) (hc1 : c1 ≤ 19)
    (hr2 : r2 ≤ 3) (hc2 : c2 ≤ 19)
    (h : c1 + row_offsets.getD r1 0 = c2 + row_offsets.getD r2 0) : r1 = r2 ∧ c1 = c2 := by
  interval_cases r1 <;> interval_cases r2 <;> simp [row_offsets] at h <;> omega

set_option maxRecDepth 100000 in
/-- The byte is recovered from the second and the fifth bus byte of its frame: the two
bytes sent with the enable bit set. -/
theorem frame_decode : ∀ bl ∈ [0x00, 0x08], ∀ v < 256,
    ((((v &&& 0xF0) ||| bl) ||| 0x04) &&& 0xF0) ||| (((((v <<< 4) &&& 0xF0) ||| bl) ||| 0x04) >>> 4)
      = v := by
  decide

theorem sentCommand_injective (h : LCD_Handle) (v w : Nat) (hv : v < 256) (hw : w < 256)
    (hbl : h.backlight_state = 0x00 ∨ h.backlight_state = 0x08)
    (heq : sentCommand h v = sentCommand h w) : v = w := by
  have hmem : h.backlight_state ∈ [0x00, 0x08] := by
    rcases hbl with hb | hb <;> simp [hb]
  have hb := congrArg busBytes heq
  rw [busBytes_sentCommand h v, busBytes_sentCommand h w,
    (frame_bytes _ hmem v hv).1, (frame_bytes _ hmem w hw).1] at hb
  have h2 : ((v &&& 0xF0) ||| h.backlight_state) ||| 0x04 =
      ((w &&& 0xF0) ||| h.backlight_state) ||| 0x04 := by
    have := congrArg (fun l => l.getD 1 0) hb
    simpa using this
  have h5 : (((v <<< 4) &&& 0xF0) ||| h.backlight_state) ||| 0x04 =
      (((w <<< 4) &&& 0xF0) ||| h.backlight_state) ||| 0x04 := by
    have := congrArg (fun l => l.getD 4 0) hb
    simpa using this
  rw [← frame_decode _ hmem v hv, ← frame_decode _ hmem w hw, h2, h5]

/-- C18: two different cells of the screen (rows 0..3, columns 0..19) get different
set-DDRAM-address commands from `LCD_SetCursor`: the addresses `c + off[r]` differ, the
command bytes `0x80 | (c + off[r])` differ, and for a handle whose backlight state is 0x00
or 0x08 the traces of the two calls differ. -/
theorem LCD_SetCursor_cells_distinct (d : Dev) (r1 c1 r2 c2 : Nat) (hr1 : r1 ≤ 3)
    (hc1 : c1 ≤ 19) (hr2 : r2 ≤ 3) (hc2 : c2 ≤ 19) (hne : (r1, c1) ≠ (r2, c2)) :
    (LCD_SetCursor d r1 c1).trace =
      d.trace ++ sentCommand d.hlcd (0x80 ||| (c1 + [0x00, 0x40, 0x14, 0x54].getD r1 0)) ∧
    (LCD_SetCursor d r2 c2).trace =
      d.trace ++ sentCommand d.hlcd (0x80 ||| (c2 + [0x00, 0x40, 0x14, 0x54].getD r2 0)) ∧
    c1 + [0x00, 0x40, 0x14, 0x54].getD r1 0 ≠ c2 + [0x00, 0x40, 0x14, 0x54].getD r2 0 ∧
    0x80 ||| (c1 + [0x00, 0x40, 0x14, 0x54].getD r1 0) ≠
      0x80 ||| (c2 + [0x00, 0x40, 0x14, 0x54].getD r2 0) ∧
    (d.hlcd.backlight_state = 0x00 ∨ d.hlcd.backlight_state = 0x08 →
      (LCD_SetCursor d r1 c1).trace ≠ (LCD_SetCursor d r2 c2).trace) := by
  have hm1 : min r1 3 = r1 := by omega
  have hm2 : min r2 3 = r2 := by omega
  have hn1 : min c1 19 = c1 := by omega
  have hn2 : min c2 19 = c2 := by omega
  have hcell1 := ddram_cells r1 (by omega) c1 (by omega)
  have hcell2 := ddram_cells r2 (by omega) c2 (by omega)
  have haddr : c1 + row_offsets.getD r1 0 ≠ c2 + row_offsets.getD r2 0 := by
    intro h
    have := ddram_address_injective r1 c1 r2 c2 hr1 hc1 hr2 hc2 h
    exact hne (by rw [this.1, this.2])
  have hcmd : 0x80 ||| (c1 + row_offsets.getD r1 0) ≠ 0x80 ||| (c2 + row_offsets.getD r2 0) := by
    intro h
    apply haddr
    rw [← hcell1.2.2.1, ← hcell2.2.2.1, h]
  refine ⟨?_, ?_, haddr, hcmd, ?_⟩
  · rw [LCD_SetCursor_eq, hm1, hn1]; rfl
  · rw [LCD_SetCursor_eq, hm2, hn2]; rfl
  · intro hbl h
    rw [LCD_SetCursor_eq, LCD_SetCursor_eq, hm1, hn1, hm2, hn2] at h
    have h' := List.append_cancel_left h
    exact hcmd (sentCommand_injective d.hlcd _ _ hcell1.2.2.2.2 hcell2.2.2.2.2 hbl h')

/-- Witness of C18: the last cell of row 0 and the first cell of row 2, which are
neighbours in DDRAM (addresses 0x13 and 0x14). -/
theorem LCD_SetCursor_cells_distinct_witness :
    ((0 ≤ 3 ∧ 19 ≤ 19) ∧ (2 ≤ 3 ∧ 0 ≤ 19) ∧ ((0, 19) : Nat × Nat) ≠ (2, 0)) ∧
    (0x80 ||| (19 + [0x00, 0x40, 0x14, 0x54].getD 0 0) : Nat) ≠
      0x80 ||| (0 + [0x00, 0x40, 0x14, 0x54].getD 2 0) :=
  ⟨⟨⟨by decide, by decide⟩, ⟨by decide, by decide⟩, by decide⟩,
    (LCD_SetCursor_cells_distinct sampleDev 0 19 2 0 (by decide) (by decide) (by decide)
      (by decide) (by decide)).2.2.2.1⟩

set_option maxRecDepth 100000 in
/-- Decoding of the six bus bytes of a command, for both backlight states and every byte. -/
theorem command_frame_lossless : ∀ bl ∈ [0x00, 0x08], ∀ v < 256,
    (busBytes (sentCommand ⟨0, 0, bl, 0, 0, 0, 0⟩ v)).length = 6 ∧
    ((busBytes (sentCommand ⟨0, 0, bl, 0, 0, 0, 0⟩ v)).filter
        (fun b => decide (b &&& 0x04 ≠ 0))).length = 2 ∧
    ((((busBytes (sentCommand ⟨0, 0, bl, 0, 0, 0, 0⟩ v)).filter
        (fun b => decide (b &&& 0x04 ≠ 0))).getD 0 0) &&& 0xF0) |||
      ((((busBytes (sentCommand ⟨0, 0, bl, 0, 0, 0, 0⟩ v)).filter
        (fun b => decide (b &&& 0x04 ≠ 0))).getD 1 0) >>> 4) = v ∧
    (∀ b ∈ (busBytes (sentCommand ⟨0, 0, bl, 0, 0, 0, 0⟩ v)).filter
        (fun b => decide (b &&& 0x04 ≠ 0)), b &&& 0x01 = 0) ∧
    (∀ b ∈ busBytes (sentCommand ⟨0, 0, bl, 0, 0, 0, 0⟩ v), b &&& 0x08 = bl ∧ b &&& 0x02 = 0) := by
  decide

set_option maxRecDepth 100000 in
/-- Decoding of the six bus bytes of a data byte. -/
theorem data_frame_lossless : ∀ bl ∈ [0x00, 0x08], ∀ v < 256,
    (busBytes (sentData ⟨0, 0, bl, 0, 0, 0, 0⟩ v)).length = 6 ∧
    ((busBytes (sentData ⟨0, 0, bl, 0, 0, 0, 0⟩ v)).filter
        (fun b => decide (b &&& 0x04 ≠ 0))).length = 2 ∧
    ((((busBytes (sentData ⟨0, 0, bl, 0, 0, 0, 0⟩ v)).filter
        (fun b => decide (b &&& 0x04 ≠ 0))).getD 0 0) &&& 0xF0) |||
      ((((busBytes (sentData ⟨0, 0, bl, 0, 0, 0, 0⟩ v)).filter
        (fun b => decide (b &&& 0x04 ≠ 0))).getD 1 0) >>> 4) = v ∧
    (∀ b ∈ (busBytes (sentData ⟨0, 0, bl, 0, 0, 0, 0⟩ v)).filter
        (fun b => decide (b &&& 0x04 ≠ 0)), b &&& 0x01 = 0x01) ∧
    (∀ b ∈ busBytes (sentData ⟨0, 0, bl, 0, 0, 0, 0⟩ v), b &&& 0x08 = bl ∧ b &&& 0x02 = 0) := by
  decide

/-- C19: for a byte `v` and a handle whose backlight state `bl` is 0x00 or 0x08, let `b1`
and `b2` be the bytes with bit 0x04 (enable) set among the six bus bytes of
`LCD_SendCommand(v)`, or of `LCD_SendData(v)`.  There are exactly two of them, and
`(b1 & 0xF0) | (b2 >> 4) = v`; bit 0x01 (register select) of both is 0 for the command
and 1 for the data byte; in all six bytes bit 0x08 equals `bl` and bit 0x02 (read/write)
is clear. -/
theorem nibble_encoding_lossless (d : Dev) (v : Nat) (hv : v < 256)
    (hbl : d.hlcd.backlight_state = 0x00 ∨ d.hlcd.backlight_state = 0x08) :
    (busBytes (LCD_SendCommand d v).trace = busBytes d.trace ++ busBytes (sentCommand d.hlcd v) ∧
      (busBytes (sentCommand d.hlcd v)).length = 6 ∧
      ((busBytes (sentCommand d.hlcd v)).filter (fun b => decide (b &&& 0x04 ≠ 0))).length = 2 ∧
      ((((busBytes (sentCommand d.hlcd v)).filter
          (fun b => decide (b &&& 0x04 ≠ 0))).getD 0 0) &&& 0xF0) |||
        ((((busBytes (sentCommand d.hlcd v)).filter
          (fun b => decide (b &&& 0x04 ≠ 0))).getD 1 0) >>> 4) = v ∧
      (∀ b ∈ (busBytes (sentCommand d.hlcd v)).filter (fun b => decide (b &&& 0x04 ≠ 0)),
        b &&& 0x01 = 0) ∧
      (∀ b ∈ busBytes (sentCommand d.hlcd v),
        b &&& 0x08 = d.hlcd.backlight_state ∧ b &&& 0x02 = 0)) ∧
    (busBytes (LCD_SendData d v).trace = busBytes d.trace ++ busBytes (sentData d.hlcd v) ∧
      (busBytes (sentData d.hlcd v)).length = 6 ∧
      ((busBytes (sentData d.hlcd v)).filter (fun b => decide (b &&& 0x04 ≠ 0))).length = 2 ∧
      ((((busBytes (sentData d.hlcd v)).filter
          (fun b => decide (b &&& 0x04 ≠ 0))).getD 0 0) &&& 0xF0) |||
        ((((busBytes (sentData d.hlcd v)).filter
          (fun b => decide (b &&& 0x04 ≠ 0))).getD 1 0) >>> 4) = v ∧
      (∀ b ∈ (busBytes (sentData d.hlcd v)).filter (fun b => decide (b &&& 0x04 ≠ 0)),
        b &&& 0x01 = 0x01) ∧
      (∀ b ∈ busBytes (sentData d.hlcd v),
        b &&& 0x08 = d.hlcd.backlight_state ∧ b &&& 0x02 = 0)) := by
  have hmem : d.hlcd.backlight_state ∈ [0x00, 0x08] := by
    rcases hbl with h | h <;> simp [h]
  constructor
  · rw [LCD_SendCommand_eq, busBytes_append, busBytes_sentCommand]
    exact ⟨rfl, command_frame_lossless _ hmem v hv⟩
  · rw [LCD_SendData_eq, busBytes_append, busBytes_sentData]
    exact ⟨rfl, data_frame_lossless _ hmem v hv⟩

/-- Witness of C19: the byte 0xA5 sent as data with the backlight on; the enable-asserted
bytes are 0xAD and 0x5D. -/
theorem nibble_encoding_lossless_witness :
    (0xA5 < 256 ∧ (sampleDev.hlcd.backlight_state = 0x00 ∨ sampleDev.hlcd.backlight_state = 0x08)) ∧
    (busBytes (sentData sampleDev.hlcd 0xA5)).filter (fun b => decide (b &&& 0x04 ≠ 0)) =
      [0xAD, 0x5D] ∧
    ((((busBytes (sentData sampleDev.hlcd 0xA5)).filter
        (fun b => decide (b &&& 0x04 ≠ 0))).getD 0 0) &&& 0xF0) |||
      ((((busBytes (sentData sampleDev.hlcd 0xA5)).filter
        (fun b => decide (b &&& 0x04 ≠ 0))).getD 1 0) >>> 4) = 0xA5 :=
  ⟨⟨by decide, by decide⟩, by decide,
    (nibble_encoding_lossless sampleDev 0xA5 (by decide) (by decide)).2.2.2.2.1⟩

/-! ## Reachable states -/

theorem wellFormed_col (h : LCD_Handle) (c : Nat) (hw : h.wellFormed) :
    LCD_Handle.wellFormed { h with current_col := c } := hw

theorem wellFormed_cursor (h : LCD_Handle) (r c : Nat) (hr : r ≤ 3) (hw : h.wellFormed) :
    LCD_Handle.wellFormed { h with current_row := r, current_col := c } :=
  ⟨hw.1, hw.2.1, hw.2.2.1, hr⟩

theorem foldl_wellFormed {α : Type} (f : Dev → α → Dev)
    (hf : ∀ d a, d.hlcd.wellFormed → (f d a).hlcd.wellFormed) (l : List α) :
    ∀ d : Dev, d.hlcd.wellFormed → (l.foldl f d).hlcd.wellFormed := by
  induction l with
  | nil => intro d h; exact h
  | cons a l ih => intro d h; exact ih _ (hf d a h)

theorem wf_SendCommand (d : Dev) (v : Nat) (h : d.hlcd.wellFormed) :
    (LCD_SendCommand d v).hlcd.wellFormed := by rw [LCD_SendCommand_eq]; exact h

theorem wf_SendData (d : Dev) (v : Nat) (h : d.hlcd.wellFormed) :
    (LCD_SendData d v).hlcd.wellFormed := by rw [LCD_SendData_eq]; exact h

theorem wf_PrintChar (d : Dev) (c : Nat) (h : d.hlcd.wellFormed) :
    (LCD_PrintChar d c).hlcd.wellFormed := by rw [LCD_PrintChar_eq]; exact h

theorem wf_PrintCustomChar (d : Dev) (c : Nat) (h : d.hlcd.wellFormed) :
    (LCD_PrintCustomChar d c).hlcd.wellFormed := by rw [LCD_PrintCustomChar_eq]; exact h

theorem wf_SetCursor (d : Dev) (row col : Nat) (h : d.hlcd.wellFormed) :
    (LCD_SetCursor d row col).hlcd.wellFormed := by
  rw [LCD_SetCursor_eq]; exact ⟨h.1, h.2.1, h.2.2.1, by show min row 3 ≤ 3; omega⟩

theorem wf_Home (d : Dev) (h : d.hlcd.wellFormed) : (LCD_Home d).hlcd.wellFormed := by
  rw [LCD_Home_eq]; exact ⟨h.1, h.2.1, h.2.2.1, Nat.zero_le _⟩

theorem wf_Clear (d : Dev) (h : d.hlcd.wellFormed) : (LCD_Clear d).hlcd.wellFormed := by
  rw [LCD_Clear_eq]; exact ⟨h.1, h.2.1, h.2.2.1, Nat.zero_le _⟩

theorem wf_HAL_Delay (d : Dev) (ms : Nat) (h : d.hlcd.wellFormed) :
    (HAL_Delay d ms).hlcd.wellFormed := h

theorem stored_toggle_range : ∀ k < 3, ∀ dc, 8 ≤ dc → dc ≤ 15 → ∀ b : Bool,
    8 ≤ stored_toggle k dc b ∧ stored_toggle k dc b ≤ 15 := by
  intro k hk dc h1 h2 b
  interval_cases k <;> interval_cases dc <;> cases b <;> decide

theorem wf_Display (d : Dev) (b : Bool) (h : d.hlcd.wellFormed) :
    (LCD_Display d b).hlcd.wellFormed := by
  rw [LCD_Display_eq]
  exact ⟨stored_toggle_range 2 (by norm_num) _ h.1.1 h.1.2 b, h.2.1, h.2.2.1, h.2.2.2⟩

theorem wf_Cursor (d : Dev) (b : Bool) (h : d.hlcd.wellFormed) :
    (LCD_Cursor d b).hlcd.wellFormed := by
  rw [LCD_Cursor_eq]
  exact ⟨stored_toggle_range 1 (by norm_num) _ h.1.1 h.1.2 b, h.2.1, h.2.2.1, h.2.2.2⟩

theorem wf_Blink (d : Dev) (b : Bool) (h : d.hlcd.wellFormed) :
    (LCD_Blink d b).hlcd.wellFormed := by
  rw [LCD_Blink_eq]
  exact ⟨stored_toggle_range 0 (by norm_num) _ h.1.1 h.1.2 b, h.2.1, h.2.2.1, h.2.2.2⟩

theorem wf_Backlight (d : Dev) (b : Bool) (h : d.hlcd.wellFormed) :
    (LCD_Backlight d b).hlcd.wellFormed := by
  cases b
  · exact ⟨h.1, h.2.1, Or.inl rfl, h.2.2.2⟩
  · exact ⟨h.1, h.2.1, Or.inr rfl, h.2.2.2⟩

theorem wf_Print (s : List Nat) : ∀ d : Dev, d.hlcd.wellFormed → (LCD_Print d s).hlcd.wellFormed := by
  induction s with
  | nil => intro d h; exact h
  | cons c s ih =>
    intro d h
    simp only [LCD_Print]
    split
    · exact h
    · exact ih _ (wf_SendData d c h)

theorem wf_PrintAt (d : Dev) (row col : Nat) (s : List Nat) (h : d.hlcd.wellFormed) :
    (LCD_PrintAt d row col s).hlcd.wellFormed :=
  wf_Print s _ (wf_SetCursor d row col h)

theorem wf_Printf (d : Dev) (row col : Nat) (s : List Nat) (h : d.hlcd.wellFormed) :
    (LCD_Printf d row col s).hlcd.wellFormed :=
  wf_PrintAt d row col _ h

theorem wf_CreateCustomChar (d : Dev) (loc : Nat) (m : List Nat) (h : d.hlcd.wellFormed) :
    (LCD_CreateCustomChar d loc m).hlcd.wellFormed := by
  rw [LCD_CreateCustomChar_eq]; exact ⟨h.1, h.2.1, h.2.2.1, Nat.zero_le _⟩

theorem wf_LoadDefaultChars (d : Dev) (h : d.hlcd.wellFormed) :
    (LCD_LoadDefaultChars d).hlcd.wellFormed :=
  foldl_wellFormed _ (fun d i hd => wf_CreateCustomChar d i _ hd) _ d h

theorem wf_DrawArrow (d : Dev) (row col : Nat) (left : Bool) (h : d.hlcd.wellFormed) :
    (LCD_DrawArrow d row col left).hlcd.wellFormed :=
  wf_PrintCustomChar _ _ (wf_SetCursor d row col h)

theorem wf_DrawSpinner (d : Dev) (row col state : Nat) (h : d.hlcd.wellFormed) :
    (LCD_DrawSpinner d row col state).hlcd.wellFormed :=
  wf_PrintChar _ _ (wf_SetCursor d row col h)

theorem wf_UpdateAnimation (d : Dev) (anim : LCD_Animation) (tick tick2 : Nat)
    (h : d.hlcd.wellFormed) : (LCD_UpdateAnimation d anim tick tick2).1.hlcd.wellFormed := by
  unfold LCD_UpdateAnimation
  split
  · exact h
  · cases hty : anim.type <;> simp only [hty]
    · exact h
    · exact wf_DrawArrow _ _ _ _ h
    · exact wf_DrawArrow _ _ _ _ h
    · exact wf_DrawArrow _ _ _ _ h
    · exact wf_DrawSpinner _ _ _ _ h
    · exact h

theorem wf_DrawProgressBar (d : Dev) (row col width percent : Nat) (h : d.hlcd.wellFormed) :
    (LCD_DrawProgressBar d row col width percent).hlcd.wellFormed := by
  apply wf_Printf
  apply wf_PrintChar
  exact foldl_wellFormed _ (fun d i hd => wf_PrintChar d _ hd) _ _
    (wf_PrintChar _ _ (wf_SetCursor d row col h))

theorem wf_ClearRow (d : Dev) (row : Nat) (h : d.hlcd.wellFormed) :
    (LCD_ClearRow d row).hlcd.wellFormed :=
  foldl_wellFormed _ (fun d _ hd => wf_PrintChar d _ hd) _ _ (wf_SetCursor d row 0 h)

theorem wf_DrawSeparator (d : Dev) (row : Nat) (h : d.hlcd.wellFormed) :
    (LCD_DrawSeparator d row).hlcd.wellFormed :=
  foldl_wellFormed _ (fun d _ hd => wf_PrintChar d _ hd) _ _ (wf_SetCursor d row 0 h)

theorem wf_DrawBox (d : Dev) (row col width : Nat) (h : d.hlcd.wellFormed) :
    (LCD_DrawBox d row col width).hlcd.wellFormed := by
  apply wf_PrintChar
  exact foldl_wellFormed _ (fun d _ hd => wf_PrintChar d _ hd) _ _
    (wf_PrintChar _ _ (wf_SetCursor d row col h))

theorem wf_ScrollText (d : Dev) (row : Nat) (text : List Nat) (delay_ms : Nat)
    (h : d.hlcd.wellFormed) : (LCD_ScrollText d row text delay_ms).hlcd.wellFormed := by
  simp only [LCD_ScrollText]
  split
  · exact wf_PrintAt d row 0 text h
  · exact foldl_wellFormed _
      (fun d i hd => wf_HAL_Delay _ _
        (foldl_wellFormed _ (fun d j hd => wf_PrintChar d _ hd) _ _ (wf_SetCursor d row 0 hd)))
      _ d h

theorem wf_Init (d : Dev) (hi2c : Nat) : (LCD_Init d hi2c).1.hlcd.wellFormed := by
  rw [LCD_Init_hlcd]
  exact ⟨⟨by show 8 ≤ 12; decide, by show 12 ≤ 15; decide⟩, rfl, Or.inr rfl, Nat.zero_le _⟩

theorem wf_run (d : Dev) (c : LCD_Call) (h : d.hlcd.wellFormed) :
    (LCD_Call.run d c).hlcd.wellFormed := by
  cases c with
  | Init hi2c => exact wf_Init d hi2c
  | Clear => exact wf_Clear d h
  | Home => exact wf_Home d h
  | SetCursor row col => exact wf_SetCursor d row col h
  | Display b => exact wf_Display d b h
  | Cursor b => exact wf_Cursor d b h
  | Blink b => exact wf_Blink d b h
  | Backlight b => exact wf_Backlight d b h
  | Print s => exact wf_Print s d h
  | PrintAt row col s => exact wf_PrintAt d row col s h
  | Printf row col s => exact wf_Printf d row col s h
  | PrintChar c => exact wf_PrintChar d c h
  | CreateCustomChar loc m => exact wf_CreateCustomChar d loc m h
  | LoadDefaultChars => exact wf_LoadDefaultChars d h
  | PrintCustomChar loc => exact wf_PrintCustomChar d loc h
  | UpdateAnimation anim tick tick2 => exact wf_UpdateAnimation d anim tick tick2 h
  | DrawArrow row col left => exact wf_DrawArrow d row col left h
  | DrawSpinner row col state => exact wf_DrawSpinner d row col state h
  | DrawProgressBar row col width percent => exact wf_DrawProgressBar d row col width percent h
  | ClearRow row => exact wf_ClearRow d row h
  | ScrollText row text delay_ms => exact wf_ScrollText d row text delay_ms h
  | DrawBox row col width => exact wf_DrawBox d row col width h
  | DrawSeparator row => exact wf_DrawSeparator d row h

/-- C20: in every state reached from `LCD_Init` by a finite sequence of calls of the public
operations with any arguments, `display_control & 0xF8 = 0x08` (the shadow is one of
0x08..0x0F), `entry_mode = 0x06`, `backlight_state` is 0x00 or 0x08, and
`current_row ≤ 3`. -/
theorem reachable_handles_well_formed (d : Dev) (hi2c : Nat) (calls : List LCD_Call) :
    (calls.foldl LCD_Call.run (LCD_Init d hi2c).1).hlcd.display_control &&& 0xF8 = 0x08 ∧
    (0x08 ≤ (calls.foldl LCD_Call.run (LCD_Init d hi2c).1).hlcd.display_control ∧
      (calls.foldl LCD_Call.run (LCD_Init d hi2c).1).hlcd.display_control ≤ 0x0F) ∧
    (calls.foldl LCD_Call.run (LCD_Init d hi2c).1).hlcd.entry_mode = 0x06 ∧
    ((calls.foldl LCD_Call.run (LCD_Init d hi2c).1).hlcd.backlight_state = 0x00 ∨
      (calls.foldl LCD_Call.run (LCD_Init d hi2c).1).hlcd.backlight_state = 0x08) ∧
    (calls.foldl LCD_Call.run (LCD_Init d hi2c).1).hlcd.current_row ≤ 3 := by
  have h := foldl_wellFormed LCD_Call.run wf_run calls _ (wf_Init d hi2c)
  have hmask : ∀ x, 8 ≤ x → x ≤ 15 → x &&& 0xF8 = 0x08 := by
    intro x h1 h2
    interval_cases x <;> rfl
  exact ⟨hmask _ h.1.1 h.1.2, h.1, h.2.1, h.2.2.1, h.2.2.2⟩

end LcdDriver
